import Mathlib

/-!
# Verification of the Haikara carbon-aware compute scheduler

A shallow embedding, in Lean 4, of the algorithmic core of the
AI-Agent-Hackathon-Haikara repository: the P415 flexibility-market bid
engine (`optimization/p415_bidder.py`), the orchestrator's FIFO fallback
path (`beckn/agents/orchestrator.py`), the heuristic window forecaster
(`optimization/forecaster.py`), the compute monitor's job-status queues
(`beckn/agents/compute_monitor.py`), the Beckn transaction orchestrator
(`beckn/bap_client.py`), the grid-data cache (`beckn/agents/grid_data_ingestor.py`)
and the audit ledger (`beckn/agents/audit_logger.py`).

Python floats are modelled as exact rationals (`ℚ`); `datetime` values are
modelled as abstract integer clock readings; randomness and network effects
enter as explicit oracle parameters.  Effectful Python methods become pure
state-passing functions.
-/

/-- Modelled from the spec: the repository's `models/job.py` (the `ComputeJob`
dataclass) is not part of the provided sources; its fields follow spec section 3
("Job") and the keyword constructor calls in `compute_monitor.py`.  It is a plain
record: all behaviour over it lives in the embedded functions below.
`preferred_windows` is the attribute attached by the orchestrator's forecasting
step.  Fields not read by any embedded function (cpu_cores, gpu_count,
memory_gb, submitted_at, earliest_start, can_migrate, sla_type) are omitted. -/
structure ComputeJob where
  id : String
  name : String
  job_type : String
  priority : Int
  energy_kwh : ℚ
  power_mw : ℚ
  duration_hours : ℚ
  deadline : String
  can_defer : Bool
  can_interrupt : Bool
  flexibility_minutes : ℚ
  preferred_region : Option String
  status : String
  preferred_windows : List (Nat × String) := []
deriving DecidableEq, Repr

/-- A P415 market event, as the dict consumed by
`P415BidEngine.calculate_flexibility_value`: the function reads the keys
with `.get`, so each is optional (`clearing_price` defaults to 0,
`duration_minutes` to 30). -/
structure GridEvent where
  product : Option String
  clearing_price : Option ℚ
  duration_minutes : Option ℚ
deriving DecidableEq, Repr

/-- `P415BidEngine.calculate_flexibility_value` from `optimization/p415_bidder.py`
(lines 37-89).  `revenue_share` is the engine's constructor parameter
(default 0.10).  The `products` dict has exactly the keys DC, DM, DR, so
`product not in self.products` is the fall-through `none`/other case.
The unused `time_window` argument is kept for fidelity to the signature. -/
def calculate_flexibility_value (revenue_share : ℚ) (job : ComputeJob)
    (time_window : Nat) (grid_event : GridEvent) : ℚ :=
  let _ := time_window
  let clearing_price := grid_event.clearing_price.getD 0
  let duration_minutes := grid_event.duration_minutes.getD 30
  let net : ℚ → ℚ := fun revenue_multiplier =>
    let duration_hours := duration_minutes / 60
    let revenue := clearing_price * job.power_mw * duration_hours * revenue_multiplier
    let platform_revenue := revenue * revenue_share
    revenue - platform_revenue
  match grid_event.product with
  | some "DC" => if job.can_interrupt then net (0.8 : ℚ) else 0
  | some "DM" =>
      if !job.can_defer || decide (job.flexibility_minutes < 5) then 0
      else net (0.5 : ℚ)
  | some "DR" => if job.can_defer then net (0.3 : ℚ) else 0
  | _ => 0

/-- A bid record as built by `P415BidEngine.create_bid`.  The `bid_id` and
`timestamp` fields are wall-clock strings (`datetime.now()`) irrelevant to any
claim and are omitted. -/
structure Bid where
  job_id : String
  product : String
  power_mw : ℚ
  duration_minutes : ℚ
  bid_price : ℚ
  expected_revenue : ℚ
deriving DecidableEq, Repr

/-- `P415BidEngine.create_bid` (lines 91-113): computes the flexibility value,
returns `None` when it is ≤ 0, otherwise builds the bid (dividing by
`power_mw * duration_minutes / 60`) and appends it to `active_bids`. -/
def create_bid (revenue_share : ℚ) (active_bids : List Bid)
    (job : ComputeJob) (event : GridEvent) : Option Bid × List Bid :=
  let value := calculate_flexibility_value revenue_share job 0 event
  if value ≤ 0 then (none, active_bids)
  else
    let bid : Bid :=
      { job_id := job.id
        product := event.product.getD ""
        power_mw := job.power_mw
        duration_minutes := event.duration_minutes.getD 30
        bid_price := value / (job.power_mw * event.duration_minutes.getD 30 / 60)
        expected_revenue := value }
    (some bid, active_bids ++ [bid])

/-- The grid forecast dict as consumed by the orchestrator's fallback and the
heuristic forecaster: per-region price and carbon series plus the P415
events.  Summary fields (`avg_price`, `min_carbon_hour`, ...) are not read by
these functions and are omitted here. -/
structure GridForecast where
  price : List (String × List ℚ)
  carbon : List (String × List ℚ)
  p415_events : List GridEvent
deriving DecidableEq, Repr

/-- The region chosen by `_fallback_schedule`: `job.preferred_region or 'south'`
(Python truthiness: `None` and the empty string both fall back to `'south'`). -/
def fallbackRegion (job : ComputeJob) : String :=
  match job.preferred_region with
  | some r => if r.isEmpty then "south" else r
  | none => "south"

/-- One entry of a schedule, as the dicts built by the orchestrator.
`start_datetime`/`end_datetime` are `datetime.now()` readings, modelled as an
abstract integer clock value. -/
structure ScheduleAssignment where
  job : ComputeJob
  start_time : Nat
  start_datetime : Int
  end_datetime : Int
  region : String
  cost : ℚ
  carbon : ℚ
  p415_revenue : ℚ
  baseline_cost : ℚ
  baseline_carbon : ℚ
deriving DecidableEq, Repr

/-- `OrchestratorAgent._fallback_schedule` (`beckn/agents/orchestrator.py`,
lines 217-257): every job is assigned immediately (start hour 0, both
datetimes = now) in its preferred region (default `'south'`), at that
region's hour-0 spot price and carbon (defaults 0.15 / 200 when the region
is missing from the forecast or its series is empty), zero P415 revenue,
and baseline figures at the reference price 0.15 and carbon 250. -/
def fallbackAssign (now : Int) (grid_forecast : GridForecast)
    (job : ComputeJob) : ScheduleAssignment :=
  let region := fallbackRegion job
  let current_price : ℚ :=
    match grid_forecast.price.lookup region with
    | some (p :: _) => p
    | _ => (0.15 : ℚ)
  let current_carbon : ℚ :=
    match grid_forecast.carbon.lookup region with
    | some (c :: _) => c
    | _ => (200 : ℚ)
  { job := job
    start_time := 0
    start_datetime := now
    end_datetime := now
    region := region
    cost := job.energy_kwh * current_price
    carbon := job.energy_kwh * current_carbon
    p415_revenue := 0
    baseline_cost := job.energy_kwh * (0.15 : ℚ)
    baseline_carbon := job.energy_kwh * 250 }

/-- The loop of `_fallback_schedule`: one immediate assignment per job. -/
def fallbackSchedule (now : Int) (jobs : List ComputeJob)
    (grid_forecast : GridForecast) : List ScheduleAssignment :=
  jobs.map (fallbackAssign now grid_forecast)

/-- Step 2 of `OrchestratorAgent.optimize` (lines 119-151): jobs with
`can_defer` and priority < 9 get `preferred_windows` attached from the
forecaster (`[]` when the per-job forecast raised); other jobs are untouched.
The forecaster is an oracle `ComputeJob → Option (List (Nat × String))`
(`none` models the caught per-job exception). -/
def enrichJob (forecastWindows : ComputeJob → Option (List (Nat × String)))
    (j : ComputeJob) : ComputeJob :=
  if j.can_defer ∧ j.priority < 9 then
    { j with preferred_windows := (forecastWindows j).getD [] }
  else j

/-- The enrichment loop over the whole job list. -/
def enrichJobs (forecastWindows : ComputeJob → Option (List (Nat × String)))
    (jobs : List ComputeJob) : List ComputeJob :=
  jobs.map (enrichJob forecastWindows)

/-- `OrchestratorAgent.optimize` (lines 95-182).  An empty job list returns
`[]` before the scheduler runs.  Otherwise the (enriched) jobs go to the
internal scheduler — an oracle returning `Except`, whose `error` case models
the caught exception — and on failure the FIFO fallback is substituted.
The datacenter-capacity fetch is a collaborator call folded into the
scheduler oracle. -/
def optimize (now : Int) (jobs : List ComputeJob) (grid_forecast : GridForecast)
    (forecastWindows : ComputeJob → Option (List (Nat × String)))
    (scheduler : List ComputeJob → GridForecast → Except String (List ScheduleAssignment)) :
    List ScheduleAssignment :=
  if jobs.isEmpty then []
  else
    let enriched := enrichJobs forecastWindows jobs
    match scheduler enriched grid_forecast with
    | .ok schedule => schedule
    | .error _ => fallbackSchedule now enriched grid_forecast

/-- The clock-independent projection of a schedule entry: every field except
the two `datetime.now()` readings. -/
def assignmentData (a : ScheduleAssignment) :
    ComputeJob × Nat × String × ℚ × ℚ × ℚ × ℚ × ℚ :=
  (a.job, a.start_time, a.region, a.cost, a.carbon, a.p415_revenue,
    a.baseline_cost, a.baseline_carbon)

/-- A candidate execution window as built by the heuristic forecaster.  The
`confidence` field of the source (`0.7 + random.uniform(0, 0.2)`, mock data
unused by scoring, sorting or any caller in the claims) is omitted. -/
structure ForecastWindow where
  start_hour : Nat
  region : String
  avg_price : ℚ
  avg_carbon : ℚ
  score : ℚ
deriving DecidableEq, Repr

/-- Stable insertion of a window into a score-sorted list: a window goes in
front of the first strictly-greater-or-equal score, i.e. before any
equal-scored window inserted from further right. -/
def insertByScore (w : ForecastWindow) : List ForecastWindow → List ForecastWindow
  | [] => [w]
  | y :: ys => if w.score ≤ y.score then w :: y :: ys else y :: insertByScore w ys

/-- Stable ascending sort by score, matching Python's stable `list.sort` with
`key=lambda x: x['score']`: a `foldr` of stable insertion keeps equal-scored
windows in enumeration order. -/
def sortByScore (ws : List ForecastWindow) : List ForecastWindow :=
  ws.foldr insertByScore []

/-- `CarbonAwareForecaster._heuristic_forecast` (`optimization/forecaster.py`,
lines 40-72): for each region in `['north', 'south', 'scotland']` and each
`hour in range(horizon_hours - int(job.duration_hours))`, average the price
and carbon slices `[hour : hour + int(duration)]`, score them against the
references 0.15 and 200, sort ascending by score and keep the top 3.
The slice sum is divided by the float `job.duration_hours` exactly as in the
source (not by the truncated length).  `int()` truncation is `floor` here
since durations are nonnegative.  A region missing from the forecast dict is
modelled as an empty series. -/
def heuristic_forecast (job : ComputeJob) (grid_forecast : GridForecast)
    (horizon_hours : Nat) : List ForecastWindow :=
  let d : Nat := job.duration_hours.floor.toNat
  let windows := ["north", "south", "scotland"].flatMap fun region =>
    (List.range (horizon_hours - d)).map fun hour =>
      let prices := (grid_forecast.price.lookup region).getD []
      let carbons := (grid_forecast.carbon.lookup region).getD []
      let window_price := ((prices.drop hour).take d).sum / job.duration_hours
      let window_carbon := ((carbons.drop hour).take d).sum / job.duration_hours
      { start_hour := hour
        region := region
        avg_price := window_price
        avg_carbon := window_carbon
        score := window_price / (0.15 : ℚ) * (0.5 : ℚ)
                  + window_carbon / (200 : ℚ) * (0.5 : ℚ) }
  (sortByScore windows).take 3

/-- The window ranking exactly as the claim states it (spec section 4.2): a
candidate for every region and every start-hour `h` with
`h + duration ≤ horizon`, scored on the mean price and mean carbon over
`[h, h + duration)`, sorted ascending by score, truncated to the top 3.
Written from the claim's words, to be compared with `heuristic_forecast`. -/
def claimRankWindows (job : ComputeJob) (grid_forecast : GridForecast)
    (horizon_hours : Nat) : List ForecastWindow :=
  let d : Nat := job.duration_hours.floor.toNat
  let windows := ["north", "south", "scotland"].flatMap fun region =>
    ((List.range (horizon_hours + 1)).filter (fun h => h + d ≤ horizon_hours)).map
      fun hour =>
        let prices := (grid_forecast.price.lookup region).getD []
        let carbons := (grid_forecast.carbon.lookup region).getD []
        let mean_price := ((prices.drop hour).take d).sum / (d : ℚ)
        let mean_carbon := ((carbons.drop hour).take d).sum / (d : ℚ)
        { start_hour := hour
          region := region
          avg_price := mean_price
          avg_carbon := mean_carbon
          score := (0.5 : ℚ) * (mean_price / (0.15 : ℚ))
                    + (0.5 : ℚ) * (mean_carbon / (200 : ℚ)) }
  (sortByScore windows).take 3

/-- The amended window ranking: identical to the claim's description except
that the enumerated start hours are those with `h + duration < horizon`
(the source iterates `range(horizon_hours - int(duration))`, so the last
window of the horizon is never considered). -/
def amendedRankWindows (job : ComputeJob) (grid_forecast : GridForecast)
    (horizon_hours : Nat) : List ForecastWindow :=
  let d : Nat := job.duration_hours.floor.toNat
  let windows := ["north", "south", "scotland"].flatMap fun region =>
    ((List.range horizon_hours).filter (fun h => h + d < horizon_hours)).map
      fun hour =>
        let prices := (grid_forecast.price.lookup region).getD []
        let carbons := (grid_forecast.carbon.lookup region).getD []
        let mean_price := ((prices.drop hour).take d).sum / (d : ℚ)
        let mean_carbon := ((carbons.drop hour).take d).sum / (d : ℚ)
        { start_hour := hour
          region := region
          avg_price := mean_price
          avg_carbon := mean_carbon
          score := (0.5 : ℚ) * (mean_price / (0.15 : ℚ))
                    + (0.5 : ℚ) * (mean_carbon / (200 : ℚ)) }
  (sortByScore windows).take 3

/-- The five job queues of `ComputeMonitor` (`beckn/agents/compute_monitor.py`). -/
structure MonitorState where
  pending_jobs : List ComputeJob
  scheduled_jobs : List ComputeJob
  running_jobs : List ComputeJob
  completed_jobs : List ComputeJob
  failed_jobs : List ComputeJob
deriving DecidableEq, Repr

/-- The in-place `job.status = status` mutation of the found (shared) object:
with distinct job ids, updating every queue entry carrying that id is exactly
the Python aliasing semantics. -/
def setStatusById (status : String) (job_id : String)
    (l : List ComputeJob) : List ComputeJob :=
  l.map fun j => if j.id = job_id then { j with status := status } else j

/-- `list.remove(job)`: removal of the first entry equal to the (mutated)
job object; with distinct ids this is removal of the first entry with its id. -/
def removeById (job_id : String) (l : List ComputeJob) : List ComputeJob :=
  l.eraseP fun j => j.id = job_id

/-- `ComputeMonitor.update_job_status` (lines 263-310): find the job in the
pending queue, else in scheduled + running (completed and failed are never
searched); if found, set its `status` field unconditionally, then move it
between queues only for the transitions pending→scheduled, scheduled→running,
running→completed, and →failed from whichever queue holds it. -/
def update_job_status (st : MonitorState) (job_id : String) (status : String) :
    MonitorState :=
  let found :=
    match st.pending_jobs.find? (fun j => j.id = job_id) with
    | some j => some j
    | none => (st.scheduled_jobs ++ st.running_jobs).find? (fun j => j.id = job_id)
  match found with
  | none => st
  | some job =>
    let old_status := job.status
    let st1 : MonitorState :=
      { st with
        pending_jobs := setStatusById status job_id st.pending_jobs
        scheduled_jobs := setStatusById status job_id st.scheduled_jobs
        running_jobs := setStatusById status job_id st.running_jobs }
    let job1 := { job with status := status }
    if status = "scheduled" ∧ old_status = "pending" then
      { st1 with
        pending_jobs := removeById job_id st1.pending_jobs
        scheduled_jobs := st1.scheduled_jobs ++ [job1] }
    else if status = "running" ∧ old_status = "scheduled" then
      { st1 with
        scheduled_jobs := removeById job_id st1.scheduled_jobs
        running_jobs := st1.running_jobs ++ [job1] }
    else if status = "completed" ∧ old_status = "running" then
      { st1 with
        running_jobs := removeById job_id st1.running_jobs
        completed_jobs := st1.completed_jobs ++ [job1] }
    else if status = "failed" then
      if st1.pending_jobs.any (fun j => j.id = job_id) then
        { st1 with
          pending_jobs := removeById job_id st1.pending_jobs
          failed_jobs := st1.failed_jobs ++ [job1] }
      else if st1.scheduled_jobs.any (fun j => j.id = job_id) then
        { st1 with
          scheduled_jobs := removeById job_id st1.scheduled_jobs
          failed_jobs := st1.failed_jobs ++ [job1] }
      else if st1.running_jobs.any (fun j => j.id = job_id) then
        { st1 with
          running_jobs := removeById job_id st1.running_jobs
          failed_jobs := st1.failed_jobs ++ [job1] }
      else
        { st1 with failed_jobs := st1.failed_jobs ++ [job1] }
    else st1

/-- The five lifecycle queues, for naming a job's location. -/
inductive LifecycleQueue
  | pend | sched | run | comp | fail
deriving DecidableEq, Repr

/-- The queue holding a given job id, searching in the monitor's own order. -/
def locateQueue (st : MonitorState) (x : String) : Option LifecycleQueue :=
  if st.pending_jobs.any (fun j => j.id = x) then some .pend
  else if st.scheduled_jobs.any (fun j => j.id = x) then some .sched
  else if st.running_jobs.any (fun j => j.id = x) then some .run
  else if st.completed_jobs.any (fun j => j.id = x) then some .comp
  else if st.failed_jobs.any (fun j => j.id = x) then some .fail
  else none

/-- All monitor jobs in queue order. -/
def monitorJobs (st : MonitorState) : List ComputeJob :=
  st.pending_jobs ++ st.scheduled_jobs ++ st.running_jobs
    ++ st.completed_jobs ++ st.failed_jobs

/-- No job id occurs twice across the five queues. -/
def NodupIds (st : MonitorState) : Prop :=
  ((monitorJobs st).map (fun j => j.id)).Nodup

/-- Every job's `status` field matches the queue holding it. -/
def ConsistentStatuses (st : MonitorState) : Prop :=
  (∀ j ∈ st.pending_jobs, j.status = "pending")
  ∧ (∀ j ∈ st.scheduled_jobs, j.status = "scheduled")
  ∧ (∀ j ∈ st.running_jobs, j.status = "running")
  ∧ (∀ j ∈ st.completed_jobs, j.status = "completed")
  ∧ (∀ j ∈ st.failed_jobs, j.status = "failed")

/-- The four protocol exchanges `_execute_single_job` performs
(`beckn/bap_client.py`, lines 187-270); the trailing `status` call of the
docstring workflow is never issued by this code path. -/
inductive BecknStep
  | search | select | init | confirm
deriving DecidableEq, Repr

/-- The counterparty's behaviour at one step: a normal response, a response
dict containing an `"error"` key (as `_make_request` returns on HTTP failure
or timeout), or an exception raised out of the exchange. -/
inductive StepResponse
  | ok | errorResp | raises
deriving DecidableEq, Repr

/-- The outcome of one job's Beckn workflow: an exception at some step
(caught by `execute_schedule`), an early return on a search error, a failed
confirmation, or a confirmed order. -/
inductive JobExecResult
  | raised (step : BecknStep)
  | searchFailed
  | confirmFailed
  | confirmed
deriving DecidableEq, Repr

/-- `BecknOrchestrator._execute_single_job`: search (early return when the
response carries an error), then select and init (whose error responses are
not inspected), then confirm (error checked).  An exception at any exchange
propagates out as `raised`. -/
def execute_single_job (respond : BecknStep → StepResponse) : JobExecResult :=
  match respond .search with
  | .raises => .raised .search
  | .errorResp => .searchFailed
  | .ok =>
    match respond .select with
    | .raises => .raised .select
    | _ =>
      match respond .init with
      | .raises => .raised .init
      | _ =>
        match respond .confirm with
        | .raises => .raised .confirm
        | .errorResp => .confirmFailed
        | .ok => .confirmed

/-- The `for scheduled_job in schedule` loop of
`BecknOrchestrator.execute_schedule` (lines 173-185), from position `i`: each
job's workflow runs inside its own `try/except`, so a raised exception is
recorded for that job and the loop continues.  The counterparty is an oracle
keyed by schedule position and step. -/
def executeScheduleFrom (respond : Nat → BecknStep → StepResponse) :
    Nat → List ScheduleAssignment → List JobExecResult
  | _, [] => []
  | i, _ :: rest => execute_single_job (respond i) :: executeScheduleFrom respond (i + 1) rest

/-- `BecknOrchestrator.execute_schedule`: run every scheduled job's workflow
in order, isolating each job's failure. -/
def execute_schedule (respond : Nat → BecknStep → StepResponse)
    (schedule : List ScheduleAssignment) : List JobExecResult :=
  executeScheduleFrom respond 0 schedule

/-- The forecast dict cached by `GridDataIngestor` (summary fields that do not
matter to the cache logic are represented by `horizon_hours` and `timestamp`). -/
structure Forecast where
  price : List (String × List ℚ)
  carbon : List (String × List ℚ)
  p415_events : List GridEvent
  horizon_hours : Nat
  timestamp : Int
deriving DecidableEq, Repr

/-- Cache fields of `GridDataIngestor`; clock readings are abstract integers
in the units of `cache_duration` (5 minutes by default). -/
structure IngestorState where
  last_forecast : Option Forecast
  last_update : Option Int
  cache_duration : Int
deriving DecidableEq, Repr

/-- `GridDataIngestor._is_cache_valid` (lines 124-130): both cache fields set
and the age strictly below the cache duration. -/
def is_cache_valid (st : IngestorState) (now : Int) : Bool :=
  match st.last_forecast, st.last_update with
  | some _, some t => decide (now - t < st.cache_duration)
  | _, _ => false

/-- The cache-miss path of `fetch_forecast`: build a fresh forecast (the
gathered carbon/price/P415 fetches with their per-source fallbacks are the
oracle `fresh`) and update the cache; if the build itself raises, return the
complete mock forecast without touching the cache. -/
def freshFetch (st : IngestorState) (now : Int) (horizon_hours : Nat)
    (fresh : Nat → Except String Forecast) (mock : Nat → Forecast) :
    Forecast × IngestorState :=
  match fresh horizon_hours with
  | .ok f => (f, { st with last_forecast := some f, last_update := some now })
  | .error _ => (mock horizon_hours, st)

/-- `GridDataIngestor.fetch_forecast` (lines 50-122): return the cached
forecast unchanged whenever the cache is valid — the requested
`horizon_hours` is not consulted by the cache check — and otherwise fetch
fresh data. -/
def fetch_forecast (st : IngestorState) (now : Int) (horizon_hours : Nat)
    (fresh : Nat → Except String Forecast) (mock : Nat → Forecast) :
    Forecast × IngestorState :=
  match st.last_forecast, st.last_update with
  | some f, some t =>
      if now - t < st.cache_duration then (f, st)
      else freshFetch st now horizon_hours fresh mock
  | _, _ => freshFetch st now horizon_hours fresh mock

/-! ## The audit ledger (`beckn/agents/audit_logger.py`)

`AuditLogger._calculate_hash` serializes a record with
`json.dumps(data, sort_keys=True, default=str)` and hashes the UTF-8 bytes
with SHA-256.  The serializer below reproduces `json.dumps`' output format —
`", "` / `": "` separators, keys in sorted order, `ensure_ascii` string
escaping — over the record structures that `log_decision` builds.  Python
float values are modelled as exact rationals; a rational is rendered as the
canonical `-?numerator/denominator` digit string (an injective rendering,
standing in for `repr(float)`'s shortest-round-trip decimal, which is
likewise injective on float values). -/

/-- Opening brace character (written by code point throughout). -/
def obrace : Char := Char.ofNat 123

/-- Closing brace character. -/
def cbrace : Char := Char.ofNat 125

/-- Lowercase hexadecimal digit, as in Python's `'\u%04x'` escapes. -/
def hexDigitChar (n : Nat) : Char :=
  if n < 10 then Char.ofNat (48 + n) else Char.ofNat (87 + n)

/-- Four lowercase hex digits, most significant first. -/
def hex4 (n : Nat) : List Char :=
  [hexDigitChar (n / 4096 % 16), hexDigitChar (n / 256 % 16),
    hexDigitChar (n / 16 % 16), hexDigitChar (n % 16)]

/-- One character of `json.dumps`' default (`ensure_ascii`) string escaping:
backslash, quote and the named control escapes as two-character sequences,
printable ASCII verbatim, all other BMP characters as `\uXXXX`, and astral
characters as a UTF-16 surrogate pair of `\u` escapes. -/
def escChar (c : Char) : List Char :=
  let n := c.toNat
  if c = '"' then ['\\', '"']
  else if c = '\\' then ['\\', '\\']
  else if n = 8 then ['\\', 'b']
  else if n = 9 then ['\\', 't']
  else if n = 10 then ['\\', 'n']
  else if n = 12 then ['\\', 'f']
  else if n = 13 then ['\\', 'r']
  else if 32 ≤ n ∧ n ≤ 126 then [c]
  else if n < 65536 then '\\' :: 'u' :: hex4 n
  else
    ('\\' :: 'u' :: hex4 (55296 + (n - 65536) / 1024))
      ++ ('\\' :: 'u' :: hex4 (56320 + (n - 65536) % 1024))

/-- A JSON string literal: quote, escaped body, quote. -/
def encString (s : String) : List Char :=
  '"' :: s.data.flatMap escChar ++ ['"']

/-- Decimal digit character. -/
def digitChar (n : Nat) : Char := Char.ofNat (48 + n)

/-- Decimal digits of a natural number, most significant first. -/
def natDigits (n : Nat) : List Char :=
  if _h : n < 10 then [digitChar n]
  else natDigits (n / 10) ++ [digitChar (n % 10)]
decreasing_by exact Nat.div_lt_self (by omega) (by omega)

/-- The canonical rendering of a rational: optional minus sign, numerator
magnitude, `/`, denominator. -/
def encRat (q : ℚ) : List Char :=
  (if q.num < 0 then ['-'] else []) ++ natDigits q.num.natAbs ++ '/' :: natDigits q.den

/-- JSON booleans. -/
def encBool (b : Bool) : List Char :=
  if b then ['t', 'r', 'u', 'e'] else ['f', 'a', 'l', 's', 'e']

/-- Is `c` a decimal digit? -/
def isDigitChar (c : Char) : Bool :=
  decide (48 ≤ c.toNat) && decide (c.toNat ≤ 57)

/-- The continuation after a rendered number must not begin with a digit for
the maximal-munch digit reader to stop in the right place; in every use below
it begins with `,`, `/`, a closing brace or a closing bracket. -/
def NoLeadingDigit : List Char → Prop
  | [] => True
  | c :: _ => isDigitChar c = false

instance : (l : List Char) → Decidable (NoLeadingDigit l)
  | [] => .isTrue trivial
  | c :: _ => inferInstanceAs (Decidable (isDigitChar c = false))

/-- Lowercase-hex digit value. -/
def decHexDigit (c : Char) : Option Nat :=
  if 48 ≤ c.toNat ∧ c.toNat ≤ 57 then some (c.toNat - 48)
  else if 97 ≤ c.toNat ∧ c.toNat ≤ 102 then some (c.toNat - 87)
  else none

/-- Read four hex digits. -/
def decHex4 : List Char → Option (Nat × List Char)
  | a :: b :: c :: d :: rest => do
      let x ← decHexDigit a
      let y ← decHexDigit b
      let z ← decHexDigit c
      let w ← decHexDigit d
      return (x * 4096 + y * 256 + z * 16 + w, rest)
  | _ => none

/-- Read an escaped string body up to the closing quote, undoing `escChar`
(including reassembling surrogate pairs).  Fuelled recursion; each step
consumes at least one input character, so fuel beyond the produced string's
length suffices. -/
def decStrBodyF : Nat → List Char → Option (List Char × List Char)
  | 0, _ => none
  | _ + 1, [] => none
  | fuel + 1, c :: rest =>
    if c = '"' then some ([], rest)
    else if c = '\\' then
      match rest with
      | [] => none
      | k :: rest2 =>
        if k = '"' ∨ k = '\\' then
          (decStrBodyF fuel rest2).map fun p => (k :: p.1, p.2)
        else if k = 'b' then
          (decStrBodyF fuel rest2).map fun p => (Char.ofNat 8 :: p.1, p.2)
        else if k = 't' then
          (decStrBodyF fuel rest2).map fun p => (Char.ofNat 9 :: p.1, p.2)
        else if k = 'n' then
          (decStrBodyF fuel rest2).map fun p => (Char.ofNat 10 :: p.1, p.2)
        else if k = 'f' then
          (decStrBodyF fuel rest2).map fun p => (Char.ofNat 12 :: p.1, p.2)
        else if k = 'r' then
          (decStrBodyF fuel rest2).map fun p => (Char.ofNat 13 :: p.1, p.2)
        else if k = 'u' then
          match decHex4 rest2 with
          | none => none
          | some (v, rest3) =>
            if 55296 ≤ v ∧ v < 56320 then
              match rest3 with
              | '\\' :: 'u' :: rest4 =>
                match decHex4 rest4 with
                | none => none
                | some (w, rest5) =>
                  if 56320 ≤ w ∧ w < 57344 then
                    (decStrBodyF fuel rest5).map fun p =>
                      (Char.ofNat (65536 + (v - 55296) * 1024 + (w - 56320)) :: p.1, p.2)
                  else none
              | _ => none
            else
              (decStrBodyF fuel rest3).map fun p => (Char.ofNat v :: p.1, p.2)
        else none
    else
      (decStrBodyF fuel rest).map fun p => (c :: p.1, p.2)

/-- Read a JSON string literal. -/
def decString (l : List Char) : Option (String × List Char) :=
  match l with
  | '"' :: rest =>
      (decStrBodyF (rest.length + 1) rest).map fun p => (String.mk p.1, p.2)
  | _ => none

/-- Maximal-munch decimal reader with accumulator. -/
def decDigits (acc : Nat) : List Char → Nat × List Char
  | [] => (acc, [])
  | c :: rest =>
      if isDigitChar c then decDigits (acc * 10 + (c.toNat - 48)) rest
      else (acc, c :: rest)

/-- Read a nonempty digit run. -/
def decNat (l : List Char) : Option (Nat × List Char) :=
  match l with
  | c :: _ => if isDigitChar c then some (decDigits 0 l) else none
  | [] => none

/-- Consume an expected literal prefix. -/
def dropLit : List Char → List Char → Option (List Char)
  | [], l => some l
  | c :: cs, d :: ds => if d = c then dropLit cs ds else none
  | _ :: _, [] => none

/-- Sequence a literal-consumption parse step. -/
def pstep {b : Type} (p : Option (List Char)) (k : List Char → Option b) : Option b :=
  match p with
  | none => none
  | some l => k l

/-- Sequence a value-producing parse step. -/
def qstep {a b : Type} (p : Option (a × List Char)) (k : a → List Char → Option b) : Option b :=
  match p with
  | none => none
  | some (x, l) => k x l

/-- Read magnitude and denominator of a rendered rational after the sign. -/
def decRatMag (neg : Bool) (l : List Char) : Option (ℚ × List Char) :=
  qstep (decNat l) fun n l2 =>
  pstep (dropLit ['/'] l2) fun l3 =>
  qstep (decNat l3) fun den l4 =>
  some ((if neg then -(n : ℚ) else (n : ℚ)) / (den : ℚ), l4)

/-- Read a rendered rational (sign, numerator, `/`, denominator). -/
def decRat (l : List Char) : Option (ℚ × List Char) :=
  match l with
  | [] => none
  | c :: rest => if c = '-' then decRatMag true rest else decRatMag false (c :: rest)

/-- Read a JSON boolean. -/
def decBool : List Char → Option (Bool × List Char)
  | 't' :: 'r' :: 'u' :: 'e' :: rest => some (true, rest)
  | 'f' :: 'a' :: 'l' :: 's' :: 'e' :: rest => some (false, rest)
  | _ => none

/-- String literal helper for serializer skeletons. -/
def lit (s : String) : List Char := s.data

/-- One entry of the decision record's `jobs_summary` list (`log_decision`,
lines 101-112): the seven serialized fields of an input job.  `jtype` holds
the `"type"` key's value (`type` is reserved in Lean); numeric values are
uniformly rationals. -/
structure JobSummaryRec where
  id : String
  name : String
  jtype : String
  priority : ℚ
  energy_kwh : ℚ
  can_defer : Bool
  deadline : String
deriving DecidableEq, Repr

/-- One entry of the decision record's `schedule` list (lines 115-130). -/
structure ScheduleItemRec where
  job_id : String
  job_name : String
  job_type : String
  start_time : ℚ
  start_datetime : String
  region : String
  cost : ℚ
  carbon : ℚ
  p415_revenue : ℚ
  baseline_cost : ℚ
  baseline_carbon : ℚ
deriving DecidableEq, Repr

/-- The decision record's `grid_state` summary (lines 93-98). -/
structure GridStateRec where
  avg_price : ℚ
  avg_carbon : ℚ
  p415_events_count : ℚ
  timestamp : String
deriving DecidableEq, Repr

/-- The decision record's `metrics` block (lines 133-142). -/
structure MetricsRec where
  total_cost : ℚ
  total_carbon : ℚ
  total_p415_revenue : ℚ
  cost_savings : ℚ
  carbon_savings : ℚ
  net_cost : ℚ
  cost_savings_percent : ℚ
  carbon_savings_percent : ℚ
deriving DecidableEq, Repr

/-- Per-region aggregates of `_calculate_regional_distribution` (lines 233-255). -/
structure RegionStatsRec where
  count : ℚ
  total_energy_kwh : ℚ
  total_cost : ℚ
  total_carbon : ℚ
  p415_revenue : ℚ
deriving DecidableEq, Repr

/-- The hash-free content of a decision record: every field `log_decision`
serializes except the `hash` key added afterwards.  `regional_distribution`
is stored with its keys already in sorted order — the canonical form
`json.dumps(..., sort_keys=True)` renders. -/
structure DecisionContent where
  timestamp : String
  decision_id : String
  jobs_count : ℚ
  scheduled_count : ℚ
  grid_state : GridStateRec
  jobs_summary : List JobSummaryRec
  schedule : List ScheduleItemRec
  metrics : MetricsRec
  regional_distribution : List (String × RegionStatsRec)
deriving DecidableEq, Repr

/-- `json.dumps` of a `jobs_summary` entry, keys sorted. -/
def encJobSummary (j : JobSummaryRec) : List Char :=
  obrace :: (lit ("\"can_defer\": ") ++ encBool j.can_defer
    ++ lit (", \"deadline\": ") ++ encString j.deadline
    ++ lit (", \"energy_kwh\": ") ++ encRat j.energy_kwh
    ++ lit (", \"id\": ") ++ encString j.id
    ++ lit (", \"name\": ") ++ encString j.name
    ++ lit (", \"priority\": ") ++ encRat j.priority
    ++ lit (", \"type\": ") ++ encString j.jtype
    ++ [cbrace])

/-- `json.dumps` of a `schedule` entry, keys sorted. -/
def encScheduleItem (s : ScheduleItemRec) : List Char :=
  obrace :: (lit ("\"baseline_carbon\": ") ++ encRat s.baseline_carbon
    ++ lit (", \"baseline_cost\": ") ++ encRat s.baseline_cost
    ++ lit (", \"carbon\": ") ++ encRat s.carbon
    ++ lit (", \"cost\": ") ++ encRat s.cost
    ++ lit (", \"job_id\": ") ++ encString s.job_id
    ++ lit (", \"job_name\": ") ++ encString s.job_name
    ++ lit (", \"job_type\": ") ++ encString s.job_type
    ++ lit (", \"p415_revenue\": ") ++ encRat s.p415_revenue
    ++ lit (", \"region\": ") ++ encString s.region
    ++ lit (", \"start_datetime\": ") ++ encString s.start_datetime
    ++ lit (", \"start_time\": ") ++ encRat s.start_time
    ++ [cbrace])

/-- `json.dumps` of the `grid_state` block, keys sorted. -/
def encGridState (g : GridStateRec) : List Char :=
  obrace :: (lit ("\"avg_carbon\": ") ++ encRat g.avg_carbon
    ++ lit (", \"avg_price\": ") ++ encRat g.avg_price
    ++ lit (", \"p415_events_count\": ") ++ encRat g.p415_events_count
    ++ lit (", \"timestamp\": ") ++ encString g.timestamp
    ++ [cbrace])

/-- `json.dumps` of the `metrics` block, keys sorted. -/
def encMetrics (m : MetricsRec) : List Char :=
  obrace :: (lit ("\"carbon_savings\": ") ++ encRat m.carbon_savings
    ++ lit (", \"carbon_savings_percent\": ") ++ encRat m.carbon_savings_percent
    ++ lit (", \"cost_savings\": ") ++ encRat m.cost_savings
    ++ lit (", \"cost_savings_percent\": ") ++ encRat m.cost_savings_percent
    ++ lit (", \"net_cost\": ") ++ encRat m.net_cost
    ++ lit (", \"total_carbon\": ") ++ encRat m.total_carbon
    ++ lit (", \"total_cost\": ") ++ encRat m.total_cost
    ++ lit (", \"total_p415_revenue\": ") ++ encRat m.total_p415_revenue
    ++ [cbrace])

/-- `json.dumps` of a per-region stats block, keys sorted. -/
def encRegionStats (r : RegionStatsRec) : List Char :=
  obrace :: (lit ("\"count\": ") ++ encRat r.count
    ++ lit (", \"p415_revenue\": ") ++ encRat r.p415_revenue
    ++ lit (", \"total_carbon\": ") ++ encRat r.total_carbon
    ++ lit (", \"total_cost\": ") ++ encRat r.total_cost
    ++ lit (", \"total_energy_kwh\": ") ++ encRat r.total_energy_kwh
    ++ [cbrace])

/-- `json.dumps` of a JSON array with `", "` separators. -/
def encListWith (f : α → List Char) : List α → List Char
  | [] => ['[', ']']
  | x :: xs => '[' :: (f x ++ xs.flatMap (fun y => ',' :: ' ' :: f y) ++ [']'])

/-- `json.dumps` of the regional-distribution object: string keys in stored
(sorted) order, each mapped to its stats block. -/
def encDist : List (String × RegionStatsRec) → List Char
  | [] => [obrace, cbrace]
  | (k, v) :: rest =>
      obrace :: (encString k ++ lit (": ") ++ encRegionStats v
        ++ rest.flatMap (fun e => ',' :: ' ' :: (encString e.1 ++ lit (": ") ++ encRegionStats e.2))
        ++ [cbrace])

/-- `json.dumps(entry, sort_keys=True)` of a full hash-free decision record:
the serialization `_calculate_hash` receives, top-level keys in sorted order. -/
def encContent (c : DecisionContent) : List Char :=
  obrace :: (lit ("\"decision_id\": ") ++ encString c.decision_id
    ++ lit (", \"grid_state\": ") ++ encGridState c.grid_state
    ++ lit (", \"jobs_count\": ") ++ encRat c.jobs_count
    ++ lit (", \"jobs_summary\": ") ++ encListWith encJobSummary c.jobs_summary
    ++ lit (", \"metrics\": ") ++ encMetrics c.metrics
    ++ lit (", \"regional_distribution\": ") ++ encDist c.regional_distribution
    ++ lit (", \"schedule\": ") ++ encListWith encScheduleItem c.schedule
    ++ lit (", \"scheduled_count\": ") ++ encRat c.scheduled_count
    ++ lit (", \"timestamp\": ") ++ encString c.timestamp
    ++ [cbrace])

/-- UTF-8 bytes of one character (`str.encode()`), as naturals < 256. -/
def utf8Bytes (c : Char) : List Nat :=
  let n := c.toNat
  if n < 128 then [n]
  else if n < 2048 then [192 + n / 64, 128 + n % 64]
  else if n < 65536 then [224 + n / 4096, 128 + n / 64 % 64, 128 + n % 64]
  else [240 + n / 262144, 128 + n / 4096 % 64, 128 + n / 64 % 64, 128 + n % 64]

/-- UTF-8 encoding of a character list. -/
def strUtf8 (l : List Char) : List Nat := l.flatMap utf8Bytes

/-- Truncation to a 32-bit word. -/
def w32 (n : Nat) : Nat := n % 4294967296

/-- 32-bit right rotation. -/
def rotr32 (x k : Nat) : Nat := w32 ((x >>> k) ||| (x <<< (32 - k)))

/-- SHA-256 round constants. -/
def sha256K : List Nat :=
  [1116352408, 1899447441, 3049323471, 3921009573,
   961987163, 1508970993, 2453635748, 2870763221,
   3624381080, 310598401, 607225278, 1426881987,
   1925078388, 2162078206, 2614888103, 3248222580,
   3835390401, 4022224774, 264347078, 604807628,
   770255983, 1249150122, 1555081692, 1996064986,
   2554220882, 2821834349, 2952996808, 3210313671,
   3336571891, 3584528711, 113926993, 338241895,
   666307205, 773529912, 1294757372, 1396182291,
   1695183700, 1986661051, 2177026350, 2456956037,
   2730485921, 2820302411, 3259730800, 3345764771,
   3516065817, 3600352804, 4094571909, 275423344,
   430227734, 506948616, 659060556, 883997877,
   958139571, 1322822218, 1537002063, 1747873779,
   1955562222, 2024104815, 2227730452, 2361852424,
   2428436474, 2756734187, 3204031479, 3329325298]

/-- SHA-256 initial hash state. -/
def sha256H0 : List Nat :=
  [1779033703, 3144134277, 1013904242, 2773480762,
   1359893119, 2600822924, 528734635, 1541459225]

/-- Big-endian 8-byte encoding of the bit length. -/
def be64 (n : Nat) : List Nat :=
  [n / 72057594037927936 % 256, n / 281474976710656 % 256,
   n / 1099511627776 % 256, n / 4294967296 % 256,
   n / 16777216 % 256, n / 65536 % 256, n / 256 % 256, n % 256]

/-- SHA-256 padding: `0x80`, zeros to 56 mod 64, 64-bit big-endian bit length. -/
def sha256pad (msg : List Nat) : List Nat :=
  let l := msg.length
  let zeros := (119 - l % 64) % 64
  msg ++ 128 :: (List.replicate zeros 0 ++ be64 (8 * l))

/-- Split a byte list into 64-byte blocks. -/
def chunks64 (l : List Nat) : List (List Nat) :=
  if _h : l.isEmpty then []
  else l.take 64 :: chunks64 (l.drop 64)
termination_by l.length
decreasing_by
  have : l.length ≠ 0 := by
    simpa [List.isEmpty_iff_length_eq_zero] using _h
  simp only [List.length_drop]
  omega

/-- The sixteen big-endian 32-bit words of a 64-byte block. -/
def blockWords (b : List Nat) : List Nat :=
  (List.range 16).map fun i =>
    b.getD (4 * i) 0 * 16777216 + b.getD (4 * i + 1) 0 * 65536
      + b.getD (4 * i + 2) 0 * 256 + b.getD (4 * i + 3) 0

/-- Message-schedule extension of sixteen words to sixty-four. -/
def sha256schedule (ws : List Nat) : List Nat :=
  (List.range 48).foldl
    (fun acc _ =>
      let n := acc.length
      let w15 := acc.getD (n - 15) 0
      let w2 := acc.getD (n - 2) 0
      let s0 := rotr32 w15 7 ^^^ rotr32 w15 18 ^^^ (w15 >>> 3)
      let s1 := rotr32 w2 17 ^^^ rotr32 w2 19 ^^^ (w2 >>> 10)
      acc ++ [w32 (acc.getD (n - 16) 0 + s0 + acc.getD (n - 7) 0 + s1)])
    ws

/-- One SHA-256 compression round. -/
def sha256round (state : List Nat) (kw : Nat × Nat) : List Nat :=
  match state with
  | [a, b, c, d, e, f, g, h] =>
      let s1 := rotr32 e 6 ^^^ rotr32 e 11 ^^^ rotr32 e 25
      let ch := (e &&& f) ^^^ ((4294967295 ^^^ e) &&& g)
      let temp1 := w32 (h + s1 + ch + kw.1 + kw.2)
      let s0 := rotr32 a 2 ^^^ rotr32 a 13 ^^^ rotr32 a 22
      let maj := (a &&& b) ^^^ (a &&& c) ^^^ (b &&& c)
      let temp2 := w32 (s0 + maj)
      [w32 (temp1 + temp2), a, b, c, w32 (d + temp1), e, f, g]
  | other => other

/-- Compress one block into the running hash state. -/
def sha256block (h : List Nat) (block : List Nat) : List Nat :=
  let ws := sha256schedule (blockWords block)
  let final := (sha256K.zip ws).foldl sha256round h
  (h.zip final).map fun p => w32 (p.1 + p.2)

/-- SHA-256 digest of a byte list, as eight 32-bit words. -/
def sha256words (msg : List Nat) : List Nat :=
  (chunks64 (sha256pad msg)).foldl sha256block sha256H0

/-- Lowercase-hex rendering of a 32-bit word. -/
def hex8 (n : Nat) : List Char :=
  hex4 (n / 65536) ++ hex4 (n % 65536)

/-- `hashlib.sha256(bytes).hexdigest()`. -/
def sha256hex (msg : List Nat) : String :=
  String.mk ((sha256words msg).flatMap hex8)

/-- `AuditLogger._calculate_hash` (lines 257-270): SHA-256 hex digest of the
UTF-8 bytes of the sorted-keys JSON serialization. -/
def calculateHash (serialized : List Char) : String :=
  sha256hex (strUtf8 serialized)

/-- A distinct pair of serializations sharing a SHA-256 digest.  Stated over
the embedded hash function; it enters theorems only as an explicitly
constructed disjunct, never as an assumption of its absence. -/
def Sha256Collision : Prop :=
  ∃ s t : List Char, s ≠ t ∧ calculateHash s = calculateHash t

/-- One element of the `schedule` list given to `log_decision`: the fields it
reads.  `cost`, `carbon` and `region` are accessed by subscript (required);
the rest via `.get` with defaults.  `start_datetime` is the `.isoformat()`
string of the stored datetime; `none` models a missing key, whose default is
the current time. -/
structure AuditScheduleItem where
  job : ComputeJob
  start_time : Option ℚ
  start_datetime : Option String
  region : String
  cost : ℚ
  carbon : ℚ
  p415_revenue : Option ℚ
  baseline_cost : Option ℚ
  baseline_carbon : Option ℚ
deriving DecidableEq, Repr

/-- The grid-state fields `log_decision` reads (each via `.get` with default). -/
structure AuditGridState where
  avg_price : Option ℚ
  avg_carbon : Option ℚ
  p415_events : List GridEvent
  timestamp : Option String
deriving DecidableEq, Repr

/-- `sum(s.get('cost', 0) for s in schedule)`. -/
def totalCost (schedule : List AuditScheduleItem) : ℚ :=
  (schedule.map fun s => s.cost).sum

/-- `sum(s.get('carbon', 0) for s in schedule)`. -/
def totalCarbon (schedule : List AuditScheduleItem) : ℚ :=
  (schedule.map fun s => s.carbon).sum

/-- `sum(s.get('p415_revenue', 0) for s in schedule)`. -/
def totalP415 (schedule : List AuditScheduleItem) : ℚ :=
  (schedule.map fun s => s.p415_revenue.getD 0).sum

/-- `sum(s.get('baseline_cost', s.get('cost', 0)) for s in schedule)`. -/
def totalBaselineCost (schedule : List AuditScheduleItem) : ℚ :=
  (schedule.map fun s => s.baseline_cost.getD s.cost).sum

/-- `sum(s.get('baseline_carbon', s.get('carbon', 0)) for s in schedule)`. -/
def totalBaselineCarbon (schedule : List AuditScheduleItem) : ℚ :=
  (schedule.map fun s => s.baseline_carbon.getD s.carbon).sum

/-- Insert into the regional-distribution table: update the region's entry in
place, or append a fresh zero-initialized entry then update it, exactly as the
Python loop over the `distribution` dict. -/
def distAdd (acc : List (String × RegionStatsRec)) (s : AuditScheduleItem) :
    List (String × RegionStatsRec) :=
  if acc.any (fun e => e.1 = s.region) then
    acc.map fun e =>
      if e.1 = s.region then
        (e.1, { count := e.2.count + 1
                total_energy_kwh := e.2.total_energy_kwh + s.job.energy_kwh
                total_cost := e.2.total_cost + s.cost
                total_carbon := e.2.total_carbon + s.carbon
                p415_revenue := e.2.p415_revenue + s.p415_revenue.getD 0 })
      else e
  else
    acc ++ [(s.region,
      { count := 1
        total_energy_kwh := s.job.energy_kwh
        total_cost := s.cost
        total_carbon := s.carbon
        p415_revenue := s.p415_revenue.getD 0 })]

/-- Insertion into a key-sorted association list. -/
def insertByKey (e : String × RegionStatsRec) :
    List (String × RegionStatsRec) → List (String × RegionStatsRec)
  | [] => [e]
  | f :: fs => if e.1 ≤ f.1 then e :: f :: fs else f :: insertByKey e fs

/-- `_calculate_regional_distribution`, canonicalized: the dict built by the
loop, with its keys in the sorted order `json.dumps(..., sort_keys=True)`
renders. -/
def buildDistribution (schedule : List AuditScheduleItem) :
    List (String × RegionStatsRec) :=
  (schedule.foldl distAdd []).foldr insertByKey []

/-- The `decision_id` string: `decision_` + compact timestamp + `_` + counter. -/
def decisionId (now_compact : String) (k : Nat) : String :=
  String.mk (lit ("decision_") ++ now_compact.data ++ '_' :: natDigits k)

/-- The hash-free decision entry `log_decision` builds (lines 75-146) from its
inputs, the clock (`now_iso` = `datetime.now().isoformat()`, `now_compact` =
the `%Y%m%d_%H%M%S` rendering) and the running `decisions_logged` counter. -/
def buildDecisionContent (now_iso now_compact : String) (counter : Nat)
    (jobs : List ComputeJob) (schedule : List AuditScheduleItem)
    (grid_state : AuditGridState) : DecisionContent :=
  let total_cost := totalCost schedule
  let total_carbon := totalCarbon schedule
  let total_p415 := totalP415 schedule
  let total_baseline_cost := totalBaselineCost schedule
  let total_baseline_carbon := totalBaselineCarbon schedule
  let cost_savings := total_baseline_cost - total_cost
  let carbon_savings := total_baseline_carbon - total_carbon
  { timestamp := now_iso
    decision_id := decisionId now_compact counter
    jobs_count := (jobs.length : ℚ)
    scheduled_count := (schedule.length : ℚ)
    grid_state :=
      { avg_price := grid_state.avg_price.getD 0
        avg_carbon := grid_state.avg_carbon.getD 0
        p415_events_count := (grid_state.p415_events.length : ℚ)
        timestamp := grid_state.timestamp.getD "" }
    jobs_summary := jobs.map fun j =>
      { id := j.id
        name := j.name
        jtype := j.job_type
        priority := (j.priority : ℚ)
        energy_kwh := j.energy_kwh
        can_defer := j.can_defer
        deadline := j.deadline }
    schedule := schedule.map fun s =>
      { job_id := s.job.id
        job_name := s.job.name
        job_type := s.job.job_type
        start_time := s.start_time.getD 0
        start_datetime := s.start_datetime.getD now_iso
        region := s.region
        cost := s.cost
        carbon := s.carbon
        p415_revenue := s.p415_revenue.getD 0
        baseline_cost := s.baseline_cost.getD s.cost
        baseline_carbon := s.baseline_carbon.getD s.carbon }
    metrics :=
      { total_cost := total_cost
        total_carbon := total_carbon
        total_p415_revenue := total_p415
        cost_savings := cost_savings
        carbon_savings := carbon_savings
        net_cost := total_cost - total_p415
        cost_savings_percent :=
          if 0 < total_baseline_cost then cost_savings / total_baseline_cost * 100 else 0
        carbon_savings_percent :=
          if 0 < total_baseline_carbon then carbon_savings / total_baseline_carbon * 100 else 0 }
    regional_distribution := buildDistribution schedule }

/-- A ledger entry: the serialized content plus the `hash` key added after
hashing. -/
structure DecisionRecord where
  content : DecisionContent
  hash : String
deriving DecidableEq, Repr

/-- The in-memory state of `AuditLogger`: the append-only decision log and the
running totals. -/
structure LedgerState where
  decision_log : List DecisionRecord
  total_cost_saved : ℚ
  total_carbon_saved : ℚ
  total_p415_revenue : ℚ
  jobs_processed : Nat
  decisions_logged : Nat
deriving DecidableEq, Repr

/-- The record `log_decision` appends: the content hashed **before** the
`hash` key is added, then stored alongside that hash. -/
def newDecisionRecord (now_iso now_compact : String) (counter : Nat)
    (jobs : List ComputeJob) (schedule : List AuditScheduleItem)
    (grid_state : AuditGridState) : DecisionRecord :=
  let content := buildDecisionContent now_iso now_compact counter jobs schedule grid_state
  { content := content, hash := calculateHash (encContent content) }

/-- `AuditLogger.log_decision` (lines 58-164): build the decision entry,
hash it, append entry-plus-hash to the log, and update the running totals. -/
def log_decision (st : LedgerState) (now_iso now_compact : String)
    (jobs : List ComputeJob) (schedule : List AuditScheduleItem)
    (grid_state : AuditGridState) : LedgerState :=
  let record := newDecisionRecord now_iso now_compact st.decisions_logged jobs schedule grid_state
  { st with
    decision_log := st.decision_log ++ [record]
    total_cost_saved := st.total_cost_saved + (totalBaselineCost schedule - totalCost schedule)
    total_carbon_saved := st.total_carbon_saved + (totalBaselineCarbon schedule - totalCarbon schedule)
    total_p415_revenue := st.total_p415_revenue + totalP415 schedule
    jobs_processed := st.jobs_processed + schedule.length
    decisions_logged := st.decisions_logged + 1 }

/-- Re-serialize a stored record, excluding its `hash` field, and hash the
result: the recomputation the ledger-integrity property speaks about. -/
def recomputedHash (r : DecisionRecord) : String :=
  calculateHash (encContent r.content)


/-- Decode a `jobs_summary` entry (inverse of `encJobSummary`). -/
def decJobSummary (l0 : List Char) : Option (JobSummaryRec × List Char) :=
  pstep (dropLit (obrace :: lit ("\"can_defer\": ")) l0) fun l1 =>
  qstep (decBool l1) fun can_defer l2 =>
  pstep (dropLit (lit (", \"deadline\": ")) l2) fun l3 =>
  qstep (decString l3) fun deadline l4 =>
  pstep (dropLit (lit (", \"energy_kwh\": ")) l4) fun l5 =>
  qstep (decRat l5) fun energy_kwh l6 =>
  pstep (dropLit (lit (", \"id\": ")) l6) fun l7 =>
  qstep (decString l7) fun id l8 =>
  pstep (dropLit (lit (", \"name\": ")) l8) fun l9 =>
  qstep (decString l9) fun name l10 =>
  pstep (dropLit (lit (", \"priority\": ")) l10) fun l11 =>
  qstep (decRat l11) fun priority l12 =>
  pstep (dropLit (lit (", \"type\": ")) l12) fun l13 =>
  qstep (decString l13) fun jtype l14 =>
  pstep (dropLit [cbrace] l14) fun l15 =>
  some ({ id := id, name := name, jtype := jtype, priority := priority,
          energy_kwh := energy_kwh, can_defer := can_defer, deadline := deadline }, l15)

/-- Decode a `schedule` entry (inverse of `encScheduleItem`). -/
def decScheduleItem (l0 : List Char) : Option (ScheduleItemRec × List Char) :=
  pstep (dropLit (obrace :: lit ("\"baseline_carbon\": ")) l0) fun l1 =>
  qstep (decRat l1) fun baseline_carbon l2 =>
  pstep (dropLit (lit (", \"baseline_cost\": ")) l2) fun l3 =>
  qstep (decRat l3) fun baseline_cost l4 =>
  pstep (dropLit (lit (", \"carbon\": ")) l4) fun l5 =>
  qstep (decRat l5) fun carbon l6 =>
  pstep (dropLit (lit (", \"cost\": ")) l6) fun l7 =>
  qstep (decRat l7) fun cost l8 =>
  pstep (dropLit (lit (", \"job_id\": ")) l8) fun l9 =>
  qstep (decString l9) fun job_id l10 =>
  pstep (dropLit (lit (", \"job_name\": ")) l10) fun l11 =>
  qstep (decString l11) fun job_name l12 =>
  pstep (dropLit (lit (", \"job_type\": ")) l12) fun l13 =>
  qstep (decString l13) fun job_type l14 =>
  pstep (dropLit (lit (", \"p415_revenue\": ")) l14) fun l15 =>
  qstep (decRat l15) fun p415_revenue l16 =>
  pstep (dropLit (lit (", \"region\": ")) l16) fun l17 =>
  qstep (decString l17) fun region l18 =>
  pstep (dropLit (lit (", \"start_datetime\": ")) l18) fun l19 =>
  qstep (decString l19) fun start_datetime l20 =>
  pstep (dropLit (lit (", \"start_time\": ")) l20) fun l21 =>
  qstep (decRat l21) fun start_time l22 =>
  pstep (dropLit [cbrace] l22) fun l23 =>
  some ({ job_id := job_id, job_name := job_name, job_type := job_type,
          start_time := start_time, start_datetime := start_datetime,
          region := region, cost := cost, carbon := carbon,
          p415_revenue := p415_revenue, baseline_cost := baseline_cost,
          baseline_carbon := baseline_carbon }, l23)

/-- Decode the `grid_state` block (inverse of `encGridState`). -/
def decGridState (l0 : List Char) : Option (GridStateRec × List Char) :=
  pstep (dropLit (obrace :: lit ("\"avg_carbon\": ")) l0) fun l1 =>
  qstep (decRat l1) fun avg_carbon l2 =>
  pstep (dropLit (lit (", \"avg_price\": ")) l2) fun l3 =>
  qstep (decRat l3) fun avg_price l4 =>
  pstep (dropLit (lit (", \"p415_events_count\": ")) l4) fun l5 =>
  qstep (decRat l5) fun p415_events_count l6 =>
  pstep (dropLit (lit (", \"timestamp\": ")) l6) fun l7 =>
  qstep (decString l7) fun timestamp l8 =>
  pstep (dropLit [cbrace] l8) fun l9 =>
  some ({ avg_price := avg_price, avg_carbon := avg_carbon,
          p415_events_count := p415_events_count, timestamp := timestamp }, l9)

/-- Decode the `metrics` block (inverse of `encMetrics`). -/
def decMetrics (l0 : List Char) : Option (MetricsRec × List Char) :=
  pstep (dropLit (obrace :: lit ("\"carbon_savings\": ")) l0) fun l1 =>
  qstep (decRat l1) fun carbon_savings l2 =>
  pstep (dropLit (lit (", \"carbon_savings_percent\": ")) l2) fun l3 =>
  qstep (decRat l3) fun carbon_savings_percent l4 =>
  pstep (dropLit (lit (", \"cost_savings\": ")) l4) fun l5 =>
  qstep (decRat l5) fun cost_savings l6 =>
  pstep (dropLit (lit (", \"cost_savings_percent\": ")) l6) fun l7 =>
  qstep (decRat l7) fun cost_savings_percent l8 =>
  pstep (dropLit (lit (", \"net_cost\": ")) l8) fun l9 =>
  qstep (decRat l9) fun net_cost l10 =>
  pstep (dropLit (lit (", \"total_carbon\": ")) l10) fun l11 =>
  qstep (decRat l11) fun total_carbon l12 =>
  pstep (dropLit (lit (", \"total_cost\": ")) l12) fun l13 =>
  qstep (decRat l13) fun total_cost l14 =>
  pstep (dropLit (lit (", \"total_p415_revenue\": ")) l14) fun l15 =>
  qstep (decRat l15) fun total_p415_revenue l16 =>
  pstep (dropLit [cbrace] l16) fun l17 =>
  some ({ total_cost := total_cost, total_carbon := total_carbon,
          total_p415_revenue := total_p415_revenue, cost_savings := cost_savings,
          carbon_savings := carbon_savings, net_cost := net_cost,
          cost_savings_percent := cost_savings_percent,
          carbon_savings_percent := carbon_savings_percent }, l17)

/-- Decode a per-region stats block (inverse of `encRegionStats`). -/
def decRegionStats (l0 : List Char) : Option (RegionStatsRec × List Char) :=
  pstep (dropLit (obrace :: lit ("\"count\": ")) l0) fun l1 =>
  qstep (decRat l1) fun count l2 =>
  pstep (dropLit (lit (", \"p415_revenue\": ")) l2) fun l3 =>
  qstep (decRat l3) fun p415_revenue l4 =>
  pstep (dropLit (lit (", \"total_carbon\": ")) l4) fun l5 =>
  qstep (decRat l5) fun total_carbon l6 =>
  pstep (dropLit (lit (", \"total_cost\": ")) l6) fun l7 =>
  qstep (decRat l7) fun total_cost l8 =>
  pstep (dropLit (lit (", \"total_energy_kwh\": ")) l8) fun l9 =>
  qstep (decRat l9) fun total_energy_kwh l10 =>
  pstep (dropLit [cbrace] l10) fun l11 =>
  some ({ count := count, total_energy_kwh := total_energy_kwh,
          total_cost := total_cost, total_carbon := total_carbon,
          p415_revenue := p415_revenue }, l11)

/-- Decode the elements of a JSON array after the first: `", "`-separated,
terminated by `]`.  Fuelled; each element consumes at least its separator,
so fuel beyond the element count suffices. -/
def decListMore (dec : List Char → Option (a × List Char)) :
    Nat → List Char → Option (List a × List Char)
  | 0, _ => none
  | _ + 1, ']' :: rest => some ([], rest)
  | fuel + 1, ',' :: ' ' :: rest =>
      qstep (dec rest) fun x l1 =>
      qstep (decListMore dec fuel l1) fun xs l2 =>
      some (x :: xs, l2)
  | _ + 1, _ => none

/-- Decode a JSON array (inverse of `encListWith`). -/
def decListWith (dec : List Char → Option (a × List Char)) (l : List Char) :
    Option (List a × List Char) :=
  match l with
  | '[' :: ']' :: rest => some ([], rest)
  | '[' :: rest =>
      qstep (dec rest) fun x l1 =>
      qstep (decListMore dec (l1.length + 1) l1) fun xs l2 =>
      some (x :: xs, l2)
  | _ => none

/-- Decode the regional-distribution entries after the first. -/
def decDistMore : Nat → List Char → Option (List (String × RegionStatsRec) × List Char)
  | 0, _ => none
  | _ + 1, [] => none
  | fuel + 1, c :: rest =>
      if c = cbrace then some ([], rest)
      else if c = ',' then
        match rest with
        | ' ' :: rest2 =>
            qstep (decString rest2) fun k l1 =>
            pstep (dropLit (lit (": ")) l1) fun l2 =>
            qstep (decRegionStats l2) fun v l3 =>
            qstep (decDistMore fuel l3) fun es l4 =>
            some ((k, v) :: es, l4)
        | _ => none
      else none

/-- Decode the regional-distribution object (inverse of `encDist`). -/
def decDist (l : List Char) : Option (List (String × RegionStatsRec) × List Char) :=
  match l with
  | c :: rest =>
      if c = obrace then
        match rest with
        | d :: rest2 =>
            if d = cbrace then some ([], rest2)
            else
              qstep (decString rest) fun k l1 =>
              pstep (dropLit (lit (": ")) l1) fun l2 =>
              qstep (decRegionStats l2) fun v l3 =>
              qstep (decDistMore (l3.length + 1) l3) fun es l4 =>
              some ((k, v) :: es, l4)
        | [] => none
      else none
  | [] => none

/-- Decode a full hash-free decision record (inverse of `encContent`). -/
def decContent (l0 : List Char) : Option (DecisionContent × List Char) :=
  pstep (dropLit (obrace :: lit ("\"decision_id\": ")) l0) fun l1 =>
  qstep (decString l1) fun decision_id l2 =>
  pstep (dropLit (lit (", \"grid_state\": ")) l2) fun l3 =>
  qstep (decGridState l3) fun grid_state l4 =>
  pstep (dropLit (lit (", \"jobs_count\": ")) l4) fun l5 =>
  qstep (decRat l5) fun jobs_count l6 =>
  pstep (dropLit (lit (", \"jobs_summary\": ")) l6) fun l7 =>
  qstep (decListWith decJobSummary l7) fun jobs_summary l8 =>
  pstep (dropLit (lit (", \"metrics\": ")) l8) fun l9 =>
  qstep (decMetrics l9) fun metrics l10 =>
  pstep (dropLit (lit (", \"regional_distribution\": ")) l10) fun l11 =>
  qstep (decDist l11) fun regional_distribution l12 =>
  pstep (dropLit (lit (", \"schedule\": ")) l12) fun l13 =>
  qstep (decListWith decScheduleItem l13) fun schedule l14 =>
  pstep (dropLit (lit (", \"scheduled_count\": ")) l14) fun l15 =>
  qstep (decRat l15) fun scheduled_count l16 =>
  pstep (dropLit (lit (", \"timestamp\": ")) l16) fun l17 =>
  qstep (decString l17) fun timestamp l18 =>
  pstep (dropLit [cbrace] l18) fun l19 =>
  some ({ timestamp := timestamp, decision_id := decision_id,
          jobs_count := jobs_count, scheduled_count := scheduled_count,
          grid_state := grid_state, jobs_summary := jobs_summary,
          schedule := schedule, metrics := metrics,
          regional_distribution := regional_distribution }, l19)

/-! ## Concrete sample inputs for witnesses and counterexamples -/

/-- A small concrete job: not deferrable, but interruptible. -/
def jobNoDefer : ComputeJob :=
  { id := "job_00001", name := "Batch Inference 1", job_type := "batch_inference",
    priority := 5, energy_kwh := 100, power_mw := 1, duration_hours := 1,
    deadline := "2025-06-01T12:00:00", can_defer := false, can_interrupt := true,
    flexibility_minutes := 120, preferred_region := some "south",
    status := "pending", preferred_windows := [] }

/-- The job of the spec's worked example: `power_mw = 2`, `can_interrupt = true`. -/
def jobExample : ComputeJob :=
  { jobNoDefer with id := "job_00002", power_mw := 2, can_defer := true }

/-- A fast-response (DC) event with clearing price 150 and duration 30 min. -/
def eventDC150 : GridEvent :=
  { product := some "DC", clearing_price := some 150, duration_minutes := some 30 }

/-- A fast-response (DC) event with clearing price 100. -/
def eventDC100 : GridEvent :=
  { product := some "DC", clearing_price := some 100, duration_minutes := some 30 }

/-- A 1-hour, 3-region forecast with constant series. -/
def gfSmall : GridForecast :=
  { price := [("north", [(0.1 : ℚ)]), ("south", [(0.1 : ℚ)]), ("scotland", [(0.1 : ℚ)])],
    carbon := [("north", [(100 : ℚ)]), ("south", [(100 : ℚ)]), ("scotland", [(100 : ℚ)])],
    p415_events := [] }

/-- A deferrable 1-hour job for the forecaster examples. -/
def jobHour : ComputeJob :=
  { jobNoDefer with id := "job_00003", can_defer := true, duration_hours := 1 }

/-- A monitor holding exactly one pending job. -/
def monitorOnePending : MonitorState :=
  { pending_jobs := [{ jobNoDefer with id := "j1", status := "pending" }],
    scheduled_jobs := [], running_jobs := [], completed_jobs := [], failed_jobs := [] }

/-- A counterparty that answers every exchange normally. -/
def respondAllOk : Nat → BecknStep → StepResponse := fun _ _ => .ok

/-- A counterparty that raises on every exchange of the first job only. -/
def respondFailFirst : Nat → BecknStep → StepResponse :=
  fun i _ => if i = 0 then .raises else .ok

/-- A two-entry schedule for the Beckn executor. -/
def scheduleTwo : List ScheduleAssignment :=
  [{ job := jobNoDefer, start_time := 0, start_datetime := 0, end_datetime := 0,
     region := "south", cost := 10, carbon := 100, p415_revenue := 0,
     baseline_cost := 15, baseline_carbon := 250 },
   { job := jobExample, start_time := 1, start_datetime := 0, end_datetime := 0,
     region := "north", cost := 12, carbon := 110, p415_revenue := 0,
     baseline_cost := 15, baseline_carbon := 250 }]

/-- A cached forecast for the ingestor example. -/
def forecastCached : Forecast :=
  { price := [("south", [(0.1 : ℚ)])], carbon := [("south", [(150 : ℚ)])],
    p415_events := [], horizon_hours := 24, timestamp := 0 }

/-- An ingestor state with a forecast cached at time 0, 5-unit cache. -/
def ingestorWithCache : IngestorState :=
  { last_forecast := some forecastCached, last_update := some 0, cache_duration := 5 }

/-- A fresh-fetch oracle that always succeeds with the requested horizon. -/
def freshOracle : Nat → Except String Forecast :=
  fun h => .ok { forecastCached with horizon_hours := h, timestamp := 1 }

/-- A mock-forecast oracle for the failure path. -/
def mockOracle : Nat → Forecast :=
  fun h => { forecastCached with horizon_hours := h, timestamp := 2 }

/-- An empty ledger. -/
def ledgerEmpty : LedgerState :=
  { decision_log := [], total_cost_saved := 0, total_carbon_saved := 0,
    total_p415_revenue := 0, jobs_processed := 0, decisions_logged := 0 }

/-- A one-entry audit schedule. -/
def auditScheduleOne : List AuditScheduleItem :=
  [{ job := jobNoDefer, start_time := some 2, start_datetime := some "2025-06-01T02:00:00",
     region := "scotland", cost := (15.5 : ℚ), carbon := 12000, p415_revenue := some 5,
     baseline_cost := some (22.5 : ℚ), baseline_carbon := some 18000 }]

/-- A concrete audit grid state. -/
def auditGridSample : AuditGridState :=
  { avg_price := some (0.15 : ℚ), avg_carbon := some 200, p415_events := [],
    timestamp := some "2025-06-01T00:00:00" }

/-- The bid `create_bid` builds for `jobExample` against `eventDC150` at the
default 10% revenue share. -/
def bidExample : Bid :=
  { job_id := "job_00002", product := "DC", power_mw := 2, duration_minutes := 30,
    bid_price := 108, expected_revenue := 108 }

/-! ## Theorems -/

/-- A value computed with a zero `power_mw × duration / 60` product is zero:
every product branch multiplies the clearing price by both factors. -/
theorem calc_value_zero_of_pd_zero (revenue_share : ℚ) (job : ComputeJob)
    (tw : Nat) (ev : GridEvent)
    (h : job.power_mw * ev.duration_minutes.getD 30 / 60 = 0) :
    calculate_flexibility_value revenue_share job tw ev = 0 := by
  have h2 : job.power_mw * ev.duration_minutes.getD 30 = 0 := by
    have h60 : (60 : ℚ) ≠ 0 := by norm_num
    exact (div_eq_zero_iff.mp h).resolve_right h60
  rcases mul_eq_zero.mp h2 with hp | hd
  · simp only [calculate_flexibility_value]
    split <;> try rfl
    all_goals split <;> simp [hp]
  · simp only [calculate_flexibility_value]
    split <;> try rfl
    all_goals split <;> simp [hd]

/-- C2 counterexample: the claim "if the job has can_defer = false, the
valuator returns a value that is not positive for every product" is false at
a concrete input — `jobNoDefer` has `can_defer = false` yet receives the
strictly positive value 36 for the fast-response (DC) product, because the
DC branch checks only `can_interrupt`. -/
theorem C2_counterexample :
    jobNoDefer.can_defer = false ∧
    ¬ calculate_flexibility_value (0.10 : ℚ) jobNoDefer 0 eventDC100 ≤ 0 := by
  constructor
  · rfl
  · norm_num [calculate_flexibility_value, jobNoDefer, eventDC100]

/-- C2 (amended): a job with `can_interrupt = false` never receives positive
value (the value is exactly 0) for the fast-response product DC, and a job
with `can_defer = false` never receives positive value for the medium (DM)
and slow (DR) products; the fast product, however, checks only
`can_interrupt`, so `can_defer = false` alone does not exclude it. -/
theorem C2_bid_eligibility (revenue_share : ℚ) (job : ComputeJob) (tw : Nat)
    (ev : GridEvent) :
    (ev.product = some "DC" → job.can_interrupt = false →
      calculate_flexibility_value revenue_share job tw ev = 0) ∧
    ((ev.product = some "DM" ∨ ev.product = some "DR") → job.can_defer = false →
      calculate_flexibility_value revenue_share job tw ev = 0) := by
  refine ⟨fun hp hci => ?_, fun hp hcd => ?_⟩
  · simp [calculate_flexibility_value, hp, hci]
  · rcases hp with hp | hp <;> simp [calculate_flexibility_value, hp, hcd]

/-- C2 witness: the amended eligibility theorem applied at concrete inputs. -/
theorem C2_bid_eligibility_witness :
    calculate_flexibility_value (0.10 : ℚ)
      { jobNoDefer with can_interrupt := false } 0 eventDC100 = 0 ∧
    calculate_flexibility_value (0.10 : ℚ) jobNoDefer 0
      { eventDC100 with product := some "DM" } = 0 :=
  ⟨(C2_bid_eligibility (0.10 : ℚ) { jobNoDefer with can_interrupt := false } 0
      eventDC100).1 rfl rfl,
   (C2_bid_eligibility (0.10 : ℚ) jobNoDefer 0
      { eventDC100 with product := some "DM" }).2 (Or.inl rfl) rfl⟩

/-- C3: for every eligible job/event pair the valuator returns
`clearing_price × power_mw × (duration/60) × multiplier` minus the platform's
`revenue_share` of it, for the multipliers 0.8 (DC), 0.5 (DM), 0.3 (DR); and
at the spec's worked example (DC, clearing price 150, 30 minutes, 2 MW,
interruptible, default 10% share) the net value is exactly 108. -/
theorem C3_value_formula (revenue_share : ℚ) (job : ComputeJob) (tw : Nat)
    (ev : GridEvent) :
    (ev.product = some "DC" → job.can_interrupt = true →
      calculate_flexibility_value revenue_share job tw ev =
        ev.clearing_price.getD 0 * job.power_mw * (ev.duration_minutes.getD 30 / 60) * (0.8 : ℚ)
          - ev.clearing_price.getD 0 * job.power_mw * (ev.duration_minutes.getD 30 / 60) * (0.8 : ℚ)
            * revenue_share) ∧
    (ev.product = some "DM" → job.can_defer = true → (5 : ℚ) ≤ job.flexibility_minutes →
      calculate_flexibility_value revenue_share job tw ev =
        ev.clearing_price.getD 0 * job.power_mw * (ev.duration_minutes.getD 30 / 60) * (0.5 : ℚ)
          - ev.clearing_price.getD 0 * job.power_mw * (ev.duration_minutes.getD 30 / 60) * (0.5 : ℚ)
            * revenue_share) ∧
    (ev.product = some "DR" → job.can_defer = true →
      calculate_flexibility_value revenue_share job tw ev =
        ev.clearing_price.getD 0 * job.power_mw * (ev.duration_minutes.getD 30 / 60) * (0.3 : ℚ)
          - ev.clearing_price.getD 0 * job.power_mw * (ev.duration_minutes.getD 30 / 60) * (0.3 : ℚ)
            * revenue_share) ∧
    calculate_flexibility_value (0.10 : ℚ) jobExample 0 eventDC150 = 108 := by
  refine ⟨fun hp hci => ?_, fun hp hcd hflex => ?_, fun hp hcd => ?_, ?_⟩
  · simp [calculate_flexibility_value, hp, hci]
  · simp [calculate_flexibility_value, hp, hcd, not_lt.mpr hflex]
  · simp [calculate_flexibility_value, hp, hcd]
  · norm_num [calculate_flexibility_value, jobExample, jobNoDefer, eventDC150]

/-- C3 witness: the formula applied at the worked example. -/
theorem C3_value_formula_witness :
    calculate_flexibility_value (0.10 : ℚ) jobExample 0 eventDC150 =
      eventDC150.clearing_price.getD 0 * jobExample.power_mw
          * (eventDC150.duration_minutes.getD 30 / 60) * (0.8 : ℚ)
        - eventDC150.clearing_price.getD 0 * jobExample.power_mw
            * (eventDC150.duration_minutes.getD 30 / 60) * (0.8 : ℚ) * (0.10 : ℚ) :=
  (C3_value_formula (0.10 : ℚ) jobExample 0 eventDC150).1 rfl rfl

/-- C9: `create_bid` returns no bid exactly when the computed value is ≤ 0;
whenever a bid is returned the value is strictly positive, which forces
`power_mw × duration_minutes / 60` to be nonzero — so the division defining
`bid_price` has a nonzero divisor — and the bid price is the value divided by
that quantity. -/
theorem C9_create_bid_division_safe (revenue_share : ℚ) (active_bids : List Bid)
    (job : ComputeJob) (ev : GridEvent) :
    ((create_bid revenue_share active_bids job ev).1 = none ↔
      calculate_flexibility_value revenue_share job 0 ev ≤ 0) ∧
    (∀ b, (create_bid revenue_share active_bids job ev).1 = some b →
      0 < calculate_flexibility_value revenue_share job 0 ev ∧
      job.power_mw * ev.duration_minutes.getD 30 / 60 ≠ 0 ∧
      b.bid_price = calculate_flexibility_value revenue_share job 0 ev /
        (job.power_mw * ev.duration_minutes.getD 30 / 60)) := by
  by_cases hv : calculate_flexibility_value revenue_share job 0 ev ≤ 0
  · constructor
    · simp [create_bid, hv]
    · intro b hb
      simp [create_bid, hv] at hb
  · have hpos : 0 < calculate_flexibility_value revenue_share job 0 ev := lt_of_not_le hv
    constructor
    · simp [create_bid, hv]
    · intro b hb
      have hpd : job.power_mw * ev.duration_minutes.getD 30 / 60 ≠ 0 := by
        intro h0
        exact hv (le_of_eq (calc_value_zero_of_pd_zero revenue_share job 0 ev h0))
      refine ⟨hpos, hpd, ?_⟩
      simp [create_bid, hv] at hb
      rw [← hb]

/-- C9 witness: at the worked example a bid is returned, with positive value,
nonzero divisor and the stated bid price. -/
theorem C9_create_bid_division_safe_witness :
    0 < calculate_flexibility_value (0.10 : ℚ) jobExample 0 eventDC150 ∧
    jobExample.power_mw * eventDC150.duration_minutes.getD 30 / 60 ≠ 0 ∧
    bidExample.bid_price = calculate_flexibility_value (0.10 : ℚ) jobExample 0 eventDC150 /
      (jobExample.power_mw * eventDC150.duration_minutes.getD 30 / 60) :=
  (C9_create_bid_division_safe (0.10 : ℚ) [] jobExample eventDC150).2 bidExample (by
    norm_num [create_bid, calculate_flexibility_value, jobExample, jobNoDefer,
      eventDC150, bidExample])

/-- Enrichment only attaches forecast windows: the job id is unchanged. -/
theorem enrichJob_id (fw : ComputeJob → Option (List (Nat × String)))
    (j : ComputeJob) : (enrichJob fw j).id = j.id := by
  unfold enrichJob; split <;> rfl

/-- Enrichment leaves the energy requirement unchanged. -/
theorem enrichJob_energy (fw : ComputeJob → Option (List (Nat × String)))
    (j : ComputeJob) : (enrichJob fw j).energy_kwh = j.energy_kwh := by
  unfold enrichJob; split <;> rfl

/-- Enrichment leaves the fallback region unchanged. -/
theorem enrichJob_region (fw : ComputeJob → Option (List (Nat × String)))
    (j : ComputeJob) : fallbackRegion (enrichJob fw j) = fallbackRegion j := by
  unfold enrichJob; split <;> rfl

/-- C4: when the internal scheduler raises, `optimize` returns the FIFO
fallback schedule over the (window-enriched) input jobs; that schedule has
exactly one assignment per input job, in order (so no drops and no
duplicates), and each assignment starts at hour 0 in the job's preferred
region (default `"south"`), with zero flexibility revenue, baseline cost
`energy × 0.15` and baseline carbon `energy × 250`, and cost/carbon equal to
the energy times that region's hour-0 price/carbon whenever the region has a
forecast series. -/
theorem C4_scheduler_failure_fallback (now : Int) (jobs : List ComputeJob)
    (gf : GridForecast) (fw : ComputeJob → Option (List (Nat × String)))
    (scheduler : List ComputeJob → GridForecast → Except String (List ScheduleAssignment))
    (hne : jobs ≠ []) (e : String)
    (hs : scheduler (enrichJobs fw jobs) gf = .error e) :
    optimize now jobs gf fw scheduler = fallbackSchedule now (enrichJobs fw jobs) gf ∧
    (optimize now jobs gf fw scheduler).map (fun a => a.job.id) =
      jobs.map (fun j => j.id) ∧
    ∀ (i : Nat) (j : ComputeJob), jobs[i]? = some j →
      ∃ a : ScheduleAssignment, (optimize now jobs gf fw scheduler)[i]? = some a ∧
        a.job.id = j.id ∧
        a.start_time = 0 ∧
        a.region = fallbackRegion j ∧
        a.p415_revenue = 0 ∧
        a.baseline_cost = j.energy_kwh * (0.15 : ℚ) ∧
        a.baseline_carbon = j.energy_kwh * 250 ∧
        (∀ p ps, gf.price.lookup (fallbackRegion j) = some (p :: ps) →
          a.cost = j.energy_kwh * p) ∧
        (∀ c cs, gf.carbon.lookup (fallbackRegion j) = some (c :: cs) →
          a.carbon = j.energy_kwh * c) := by
  have hopt : optimize now jobs gf fw scheduler =
      fallbackSchedule now (enrichJobs fw jobs) gf := by
    unfold optimize
    rw [if_neg (by simp [List.isEmpty_iff, hne])]
    simp only [hs]
  refine ⟨hopt, ?_, ?_⟩
  · rw [hopt]
    unfold fallbackSchedule enrichJobs
    rw [List.map_map, List.map_map]
    refine List.map_congr_left fun j _ => ?_
    simp [fallbackAssign, enrichJob_id]
  · intro i j hj
    refine ⟨fallbackAssign now gf (enrichJob fw j), ?_, ?_, rfl, ?_, rfl, ?_, ?_, ?_, ?_⟩
    · rw [hopt]
      unfold fallbackSchedule enrichJobs
      rw [List.map_map, List.getElem?_map, hj]
      rfl
    · simp [fallbackAssign, enrichJob_id]
    · simp [fallbackAssign, enrichJob_region]
    · simp [fallbackAssign, enrichJob_energy]
    · simp [fallbackAssign, enrichJob_energy]
    · intro p ps hlk
      simp only [fallbackAssign, enrichJob_region, enrichJob_energy, hlk]
    · intro c cs hlk
      simp only [fallbackAssign, enrichJob_region, enrichJob_energy, hlk]

/-- C4 witness: the fallback substitution at a concrete failing scheduler. -/
theorem C4_scheduler_failure_fallback_witness :
    optimize 0 [jobNoDefer] gfSmall (fun _ => none) (fun _ _ => .error "boom") =
      fallbackSchedule 0 (enrichJobs (fun _ => none) [jobNoDefer]) gfSmall :=
  (C4_scheduler_failure_fallback 0 [jobNoDefer] gfSmall (fun _ => none)
    (fun _ _ => .error "boom") (by simp) "boom" rfl).1

/-- C8: the FIFO fallback is a pure function of the job list and forecast —
its only impure input, the wall clock, affects none of the assignment data
(job, start hour, region, cost, carbon, revenue, baselines): two runs at
different clock readings agree on every such field. -/
theorem C8_fallback_deterministic (now1 now2 : Int) (jobs : List ComputeJob)
    (gf : GridForecast) :
    (fallbackSchedule now1 jobs gf).map assignmentData =
      (fallbackSchedule now2 jobs gf).map assignmentData := by
  unfold fallbackSchedule
  rw [List.map_map, List.map_map]
  rfl

/-- The Beckn executor produces one outcome per scheduled job, whatever the
counterparty does. -/
theorem executeScheduleFrom_length (r : Nat → BecknStep → StepResponse) :
    ∀ (s : Nat) (l : List ScheduleAssignment),
      (executeScheduleFrom r s l).length = l.length
  | _, [] => rfl
  | s, _ :: rest => by
      simp [executeScheduleFrom, executeScheduleFrom_length r (s + 1) rest]

/-- Outcomes at positions other than `k` depend only on the counterparty's
behaviour at positions other than `k`. -/
theorem executeScheduleFrom_congr (r1 r2 : Nat → BecknStep → StepResponse)
    (k : Nat) (h : ∀ i, i ≠ k → r1 i = r2 i) :
    ∀ (s : Nat) (l : List ScheduleAssignment) (i : Nat), s + i ≠ k →
      (executeScheduleFrom r1 s l)[i]? = (executeScheduleFrom r2 s l)[i]?
  | _, [], _, _ => rfl
  | s, _ :: _, 0, hne => by
      simp only [executeScheduleFrom, List.getElem?_cons_zero, Option.some.injEq]
      rw [h s (by simpa using hne)]
  | s, _ :: rest, i + 1, hne => by
      simp only [executeScheduleFrom, List.getElem?_cons_succ]
      exact executeScheduleFrom_congr r1 r2 k h (s + 1) rest i (by omega)

/-- C7: a failure in one job's protocol exchange is isolated to that job —
the executor still produces an outcome for every job in the schedule, and the
outcome at every other position is exactly what it would have been had the
failing job's counterparty behaved arbitrarily differently. -/
theorem C7_transaction_failure_isolated (r1 r2 : Nat → BecknStep → StepResponse)
    (k : Nat) (hagree : ∀ i, i ≠ k → r1 i = r2 i)
    (schedule : List ScheduleAssignment) :
    (execute_schedule r1 schedule).length = schedule.length ∧
    ∀ i : Nat, i ≠ k →
      (execute_schedule r1 schedule)[i]? = (execute_schedule r2 schedule)[i]? := by
  refine ⟨executeScheduleFrom_length r1 0 schedule, fun i hi => ?_⟩
  exact executeScheduleFrom_congr r1 r2 k hagree 0 schedule i (by omega)

/-- C7 witness: a counterparty raising on every step of the first job leaves
the second job's outcome identical to the all-success run. -/
theorem C7_transaction_failure_isolated_witness :
    (execute_schedule respondFailFirst scheduleTwo).length = scheduleTwo.length ∧
    ∀ i : Nat, i ≠ 0 →
      (execute_schedule respondFailFirst scheduleTwo)[i]? =
        (execute_schedule respondAllOk scheduleTwo)[i]? :=
  C7_transaction_failure_isolated respondFailFirst respondAllOk 0
    (fun i hi => by funext s; simp [respondFailFirst, respondAllOk, hi]) scheduleTwo

/-- C10: a valid cache short-circuits `fetch_forecast` — the cached forecast
object is returned unchanged and the state untouched, for every requested
horizon (the cache check never reads `horizon_hours`); and a fresh forecast
is built exactly when the cache check fails. -/
theorem C10_cache_hit_returns_cached (st : IngestorState) (now : Int) :
    (∀ f t, st.last_forecast = some f → st.last_update = some t →
      now - t < st.cache_duration →
      ∀ (horizon_hours : Nat) (fresh : Nat → Except String Forecast)
        (mock : Nat → Forecast),
        fetch_forecast st now horizon_hours fresh mock = (f, st)) ∧
    (is_cache_valid st now = false →
      ∀ (horizon_hours : Nat) (fresh : Nat → Except String Forecast)
        (mock : Nat → Forecast),
        fetch_forecast st now horizon_hours fresh mock =
          freshFetch st now horizon_hours fresh mock) := by
  constructor
  · intro f t hf ht hv horizon_hours fresh mock
    unfold fetch_forecast
    simp [hf, ht, hv]
  · intro hcv horizon_hours fresh mock
    unfold is_cache_valid at hcv
    unfold fetch_forecast
    rcases hf : st.last_forecast with _ | f <;> rcases ht : st.last_update with _ | t <;>
      simp [hf, ht] at hcv ⊢
    intro h2
    exact absurd h2 (not_lt.mpr hcv)

/-- C10 witness: with a forecast cached at time 0 and a 5-unit cache
duration, a fetch at time 1 requesting a different horizon (48 instead of the
cached 24) returns the cached object and leaves the state unchanged. -/
theorem C10_cache_hit_returns_cached_witness :
    fetch_forecast ingestorWithCache 1 48 freshOracle mockOracle =
      (forecastCached, ingestorWithCache) :=
  (C10_cache_hit_returns_cached ingestorWithCache 1).1 forecastCached 0 rfl rfl
    (by norm_num [ingestorWithCache]) 48 freshOracle mockOracle

/-- C5 counterexample: the claim enumerates start hours with
`h + duration ≤ horizon`, but the source iterates
`range(horizon_hours - int(duration))`, i.e. `h + duration < horizon`.  With
a 1-hour job on a 1-hour horizon the code finds no window at all while the
claim's enumeration produces one per region. -/
theorem C5_counterexample :
    heuristic_forecast jobHour gfSmall 1 ≠ claimRankWindows jobHour gfSmall 1 := by
  intro h
  have h0 : (heuristic_forecast jobHour gfSmall 1).length = 0 := rfl
  have h3 : (claimRankWindows jobHour gfSmall 1).length = 3 := by
    with_unfolding_all rfl
  rw [h, h3] at h0
  exact absurd h0 (by decide)

/-- Pointwise-equal window builders give the same flat enumeration. -/
theorem flatMap_congr_fun {α β : Type} (l : List α) (f g : α → List β)
    (h : ∀ a, f a = g a) : l.flatMap f = l.flatMap g := by
  induction l with
  | nil => rfl
  | cons x xs ih => simp [h x, ih]

/-- The start hours the source iterates: `range (n - d)` is exactly the
filter of `h + d < n` over the horizon. -/
theorem filter_range_add_lt (n : Nat) :
    ∀ d : Nat, (List.range n).filter (fun h => h + d < n) = List.range (n - d) := by
  induction n with
  | zero => simp
  | succ n ih =>
    intro d
    cases d with
    | zero =>
      rw [Nat.sub_zero]
      apply List.filter_eq_self.mpr
      intro h hmem
      simp only [List.mem_range] at hmem
      simpa using hmem
    | succ e =>
      rw [List.range_succ, List.filter_append]
      have h1 : (List.range n).filter (fun h => h + (e + 1) < n + 1) =
          (List.range n).filter (fun h => h + e < n) := by
        apply List.filter_congr
        intro h _
        simp only [decide_eq_decide]
        omega
      have h2 : ([n].filter fun h => h + (e + 1) < n + 1) = [] := by
        simp
      rw [h1, ih e, h2, List.append_nil]
      congr 1
      omega

/-- C5 (amended): for integral durations the heuristic forecaster is exactly
the claim's ranking with the hour range tightened to `h + duration < horizon`
— one candidate per region per such hour, scored
`0.5·(mean price / 0.15) + 0.5·(mean carbon / 200)` over `[h, h+duration)`,
sorted ascending by score, truncated to the top 3. -/
theorem C5_heuristic_matches_amended (job : ComputeJob) (gf : GridForecast)
    (horizon_hours : Nat) (d : Nat) (hd : job.duration_hours = (d : ℚ)) :
    heuristic_forecast job gf horizon_hours = amendedRankWindows job gf horizon_hours := by
  have hfl : ((d : ℚ)).floor.toNat = d := by
    rw [Rat.floor_def']
    simp
  unfold heuristic_forecast amendedRankWindows
  simp only [hd, hfl, filter_range_add_lt]
  refine congrArg (fun w => (sortByScore w).take 3) ?_
  refine flatMap_congr_fun _ _ _ fun region => ?_
  refine List.map_congr_left fun hour _ => ?_
  congr 1
  ring

/-- C5 witness: the amended equivalence at a 1-hour job over a 2-hour
horizon. -/
theorem C5_heuristic_matches_amended_witness :
    heuristic_forecast jobHour gfSmall 2 = amendedRankWindows jobHour gfSmall 2 :=
  C5_heuristic_matches_amended jobHour gfSmall 2 1 (by norm_num [jobHour, jobNoDefer])

/-- C6 counterexample: the claim's monotone transition discipline is violated
through the public interface — calling `update_job_status` with `"completed"`
on a pending job overwrites its status field (pending→completed is not an
allowed edge) while the job stays in the pending queue, and nothing reaches
the completed queue. -/
theorem C6_counterexample :
    (update_job_status monitorOnePending "j1" "completed").pending_jobs.map
        (fun j => j.status) = ["completed"] ∧
    monitorOnePending.pending_jobs.map (fun j => j.status) = ["pending"] ∧
    (update_job_status monitorOnePending "j1" "completed").completed_jobs = [] := by
  refine ⟨?_, rfl, ?_⟩ <;> with_unfolding_all rfl

/-- The in-place status write never changes any job's id. -/
theorem setStatusById_map_id (s jid : String) (l : List ComputeJob) :
    (setStatusById s jid l).map (fun j => j.id) = l.map (fun j => j.id) := by
  unfold setStatusById
  rw [List.map_map]
  refine List.map_congr_left fun j _ => ?_
  dsimp only [Function.comp]
  split <;> rfl

/-- The status write preserves which ids occur in a queue. -/
theorem any_id_setStatusById (s jid x : String) (l : List ComputeJob) :
    (setStatusById s jid l).any (fun j => j.id = x) = l.any (fun j => j.id = x) := by
  induction l with
  | nil => rfl
  | cons j rest ih =>
    simp only [setStatusById, List.map_cons, List.any_cons] at ih ⊢
    rw [show ((if j.id = jid then { j with status := s } else j).id) = j.id from
      by split <;> rfl]
    rw [ih]

/-- After removing a job by id from a queue with distinct ids, that id is
gone. -/
theorem any_id_removeById_self (jid : String) (l : List ComputeJob)
    (hnd : (l.map (fun j => j.id)).Nodup) :
    (removeById jid l).any (fun j => j.id = jid) = false := by
  induction l with
  | nil => rfl
  | cons j rest ih =>
    simp only [List.map_cons, List.nodup_cons] at hnd
    by_cases hj : j.id = jid
    · have hrem : removeById jid (j :: rest) = rest := by
        simp [removeById, List.eraseP_cons, hj]
      rw [hrem, List.any_eq_false]
      intro k hk hkid
      have hkid2 : k.id = jid := by simpa using hkid
      exact hnd.1 (List.mem_map.mpr ⟨k, hk, by rw [hkid2, hj]⟩)
    · have hrem : removeById jid (j :: rest) = j :: removeById jid rest := by
        simp [removeById, List.eraseP_cons, hj]
      rw [hrem]
      simp [List.any_cons, hj, ih hnd.2]

/-- Removing one id from a queue leaves every other id's membership alone. -/
theorem any_id_removeById_other (jid x : String) (hx : x ≠ jid)
    (l : List ComputeJob) :
    (removeById jid l).any (fun j => j.id = x) = l.any (fun j => j.id = x) := by
  induction l with
  | nil => rfl
  | cons j rest ih =>
    by_cases hj : j.id = jid
    · have hrem : removeById jid (j :: rest) = rest := by
        simp [removeById, List.eraseP_cons, hj]
      rw [hrem]
      have hjx : (decide (j.id = x)) = false := by simp [hj, Ne.symm hx]
      simp [List.any_cons, hjx]
    · have hrem : removeById jid (j :: rest) = j :: removeById jid rest := by
        simp [removeById, List.eraseP_cons, hj]
      rw [hrem]
      simp only [List.any_cons, ih]

/-- Queue placement is a function of the five membership tests. -/
theorem locateQueue_congr (st1 st2 : MonitorState) (x : String)
    (hp : st1.pending_jobs.any (fun j => j.id = x) = st2.pending_jobs.any (fun j => j.id = x))
    (hs : st1.scheduled_jobs.any (fun j => j.id = x) = st2.scheduled_jobs.any (fun j => j.id = x))
    (hr : st1.running_jobs.any (fun j => j.id = x) = st2.running_jobs.any (fun j => j.id = x))
    (hc : st1.completed_jobs.any (fun j => j.id = x) = st2.completed_jobs.any (fun j => j.id = x))
    (hf : st1.failed_jobs.any (fun j => j.id = x) = st2.failed_jobs.any (fun j => j.id = x)) :
    locateQueue st1 x = locateQueue st2 x := by
  unfold locateQueue
  rw [hp, hs, hr, hc, hf]

/-- Appending one job to a queue adds exactly its id to the membership test. -/
theorem any_append_single (l : List ComputeJob) (a : ComputeJob) (x : String) :
    (l ++ [a]).any (fun j => j.id = x) =
      (l.any (fun j => j.id = x) || decide (a.id = x)) := by
  simp [List.any_append]

/-- Membership as a Boolean any-test versus the id list. -/
theorem any_id_eq_true_iff (l : List ComputeJob) (x : String) :
    l.any (fun j => j.id = x) = true ↔ x ∈ l.map (fun j => j.id) := by
  simp only [List.any_eq_true, List.mem_map, decide_eq_true_eq]

/-- The complement of `any_id_eq_true_iff`. -/
theorem any_id_eq_false_iff (l : List ComputeJob) (x : String) :
    l.any (fun j => j.id = x) = false ↔ x ∉ l.map (fun j => j.id) := by
  rw [← any_id_eq_true_iff]
  cases h : l.any (fun j => j.id = x) <;> simp

/-- `find?` over an append searches the left list first. -/
theorem find_append_orElse {α : Type} (p : α → Bool) (l1 l2 : List α) :
    (l1 ++ l2).find? p = ((l1.find? p).orElse fun _ => l2.find? p) := by
  induction l1 with
  | nil => simp
  | cons a t ih => by_cases hp : p a <;> simp [List.find?_cons, hp, ih]

/-- C6 (amended): under distinct job ids and queue-consistent statuses,
`update_job_status` moves a job between queues only along the monotone edges
— pending→scheduled (on `"scheduled"`), scheduled→running (on `"running"`),
running→completed (on `"completed"`), and any searchable queue→failed (on
`"failed"`); every other status argument leaves the job in its queue (while
still overwriting its status field, as the counterexample shows); jobs in
the completed or failed queues, or absent, are never touched; and no other
job's queue placement changes. -/
theorem C6_update_monotone_queues (st : MonitorState) (jid status : String)
    (hnd : NodupIds st) (hcs : ConsistentStatuses st) :
    (∀ x, x ≠ jid →
      locateQueue (update_job_status st jid status) x = locateQueue st x) ∧
    (locateQueue st jid = some LifecycleQueue.pend →
      locateQueue (update_job_status st jid status) jid =
        (if status = "scheduled" then some LifecycleQueue.sched
         else if status = "failed" then some LifecycleQueue.fail
         else some LifecycleQueue.pend)) ∧
    (locateQueue st jid = some LifecycleQueue.sched →
      locateQueue (update_job_status st jid status) jid =
        (if status = "running" then some LifecycleQueue.run
         else if status = "failed" then some LifecycleQueue.fail
         else some LifecycleQueue.sched)) ∧
    (locateQueue st jid = some LifecycleQueue.run →
      locateQueue (update_job_status st jid status) jid =
        (if status = "completed" then some LifecycleQueue.comp
         else if status = "failed" then some LifecycleQueue.fail
         else some LifecycleQueue.run)) ∧
    ((locateQueue st jid = some LifecycleQueue.comp ∨
      locateQueue st jid = some LifecycleQueue.fail ∨
      locateQueue st jid = none) →
      update_job_status st jid status = st) := by
  have hnd0 := hnd
  unfold NodupIds monitorJobs at hnd0
  simp only [List.map_append, List.nodup_append, List.disjoint_append_right] at hnd0
  obtain ⟨⟨⟨⟨hndP, hndS, hdPS⟩, hndR, hdPSR⟩, hndC, hdPSRC⟩, hndF, hdPSRCF⟩ := hnd0
  rcases hfp : st.pending_jobs.find? (fun j => j.id = jid) with _ | jp
  · -- not in the pending queue
    rcases hfs : (st.scheduled_jobs ++ st.running_jobs).find? (fun j => j.id = jid)
      with _ | js
    · -- found nowhere searchable: the monitor is untouched
      have hupd : update_job_status st jid status = st := by
        simp only [update_job_status, hfp, hfs]
      have hallP := List.find?_eq_none.mp hfp
      have hallSR := List.find?_eq_none.mp hfs
      have hbP : st.pending_jobs.any (fun j => j.id = jid) = false := by
        rw [List.any_eq_false]; exact hallP
      have hbS : st.scheduled_jobs.any (fun j => j.id = jid) = false := by
        rw [List.any_eq_false]
        exact fun j hj => hallSR j (List.mem_append_left _ hj)
      have hbR : st.running_jobs.any (fun j => j.id = jid) = false := by
        rw [List.any_eq_false]
        exact fun j hj => hallSR j (List.mem_append_right _ hj)
      refine ⟨fun x _ => by rw [hupd], ?_, ?_, ?_, fun _ => hupd⟩
      all_goals
        intro h
        exfalso
        unfold locateQueue at h
        rw [hbP, hbS, hbR] at h
        rcases hC : st.completed_jobs.any (fun j => j.id = jid) <;>
          rcases hF : st.failed_jobs.any (fun j => j.id = jid) <;>
            simp [hC, hF] at h
    · -- found in scheduled ++ running
      have hor := find_append_orElse (fun j => decide (j.id = jid))
        st.scheduled_jobs st.running_jobs
      rw [hfs] at hor
      have hjsmem : js ∈ st.scheduled_jobs ++ st.running_jobs :=
        List.mem_of_find?_eq_some hfs
      have hjsid : js.id = jid := by
        have := List.find?_some hfs
        simpa using this
      have hallP := List.find?_eq_none.mp hfp
      have hbP : st.pending_jobs.any (fun j => j.id = jid) = false := by
        rw [List.any_eq_false]; exact hallP
      rcases hfss : st.scheduled_jobs.find? (fun j => j.id = jid) with _ | js1
      · -- in the running queue
        rw [hfss] at hor
        simp only [Option.orElse] at hor
        have hor2 : st.running_jobs.find? (fun j => j.id = jid) = some js := hor.symm
        have hjrmem : js ∈ st.running_jobs := List.mem_of_find?_eq_some hor2
        have hjsst : js.status = "running" := hcs.2.2.1 js hjrmem
        have hidR : jid ∈ st.running_jobs.map (fun j => j.id) :=
          List.mem_map.mpr ⟨js, hjrmem, hjsid⟩
        have hnS : jid ∉ st.scheduled_jobs.map (fun j => j.id) := by
          have hall := List.find?_eq_none.mp hfss
          rw [← any_id_eq_false_iff, List.any_eq_false]
          exact hall
        have hnC : jid ∉ st.completed_jobs.map (fun j => j.id) :=
          hdPSRC (List.mem_append_right _ hidR)
        have hnF : jid ∉ st.failed_jobs.map (fun j => j.id) :=
          hdPSRCF (List.mem_append_left _ (List.mem_append_right _ hidR))
        have hbS : st.scheduled_jobs.any (fun j => j.id = jid) = false :=
          (any_id_eq_false_iff _ _).mpr hnS
        have hbR : st.running_jobs.any (fun j => j.id = jid) = true :=
          (any_id_eq_true_iff _ _).mpr hidR
        have hbC : st.completed_jobs.any (fun j => j.id = jid) = false :=
          (any_id_eq_false_iff _ _).mpr hnC
        have hbF : st.failed_jobs.any (fun j => j.id = jid) = false :=
          (any_id_eq_false_iff _ _).mpr hnF
        have hloc : locateQueue st jid = some LifecycleQueue.run := by
          unfold locateQueue
          rw [hbP, hbS, hbR]
          simp
        refine ⟨?_, ?_, ?_, ?_, ?_⟩
        · -- other ids keep their queue
          intro x hx
          have hxj : (decide (js.id = x)) = false := by
            simp [hjsid, Ne.symm hx]
          by_cases hcomp : status = "completed"
          · simp only [update_job_status, hfp, hfs, hjsst, hcomp]
            simp only [and_self, String.reduceEq, if_true, if_false, and_true,
              true_and, and_false, false_and, ite_true, ite_false]
            apply locateQueue_congr <;>
              simp only [any_id_setStatusById, any_id_removeById_other jid x hx,
                any_append_single, hxj, Bool.or_false]
          · by_cases hfail : status = "failed"
            · have hc1 : (setStatusById "failed" jid st.pending_jobs).any
                  (fun j => j.id = jid) = false := by
                rw [any_id_setStatusById]; exact hbP
              have hc2 : (setStatusById "failed" jid st.scheduled_jobs).any
                  (fun j => j.id = jid) = false := by
                rw [any_id_setStatusById]; exact hbS
              have hc3 : (setStatusById "failed" jid st.running_jobs).any
                  (fun j => j.id = jid) = true := by
                rw [any_id_setStatusById]; exact hbR
              simp only [update_job_status, hfp, hfs, hjsst, hfail]
              simp only [and_self, String.reduceEq, if_true, if_false, and_true,
                true_and, and_false, false_and, ite_true, ite_false, hc1, hc2, hc3,
                Bool.false_eq_true, Bool.true_eq_false]
              apply locateQueue_congr <;>
                simp only [any_id_setStatusById, any_id_removeById_other jid x hx,
                  any_append_single, hxj, Bool.or_false]
            · simp only [update_job_status, hfp, hfs, hjsst]
              simp only [hcomp, hfail]
              simp only [and_self, String.reduceEq, if_true, if_false, and_true,
                true_and, and_false, false_and, ite_true, ite_false]
              apply locateQueue_congr <;> simp only [any_id_setStatusById]
        · intro h
          rw [hloc] at h
          simp at h
        · intro h
          rw [hloc] at h
          simp at h
        · intro _
          have hrmfalse : (removeById jid (setStatusById status jid st.running_jobs)).any
              (fun j => j.id = jid) = false := by
            apply any_id_removeById_self
            rw [setStatusById_map_id]
            exact hndR
          by_cases hcomp : status = "completed"
          · simp only [update_job_status, hfp, hfs, hjsst, hcomp]
            simp only [and_self, String.reduceEq, if_true, if_false, and_true,
              true_and, and_false, false_and, ite_true, ite_false]
            unfold locateQueue
            rw [any_id_setStatusById, hbP, any_id_setStatusById, hbS]
            rw [show (removeById jid (setStatusById "completed" jid st.running_jobs)).any
                (fun j => j.id = jid) = false from by
              apply any_id_removeById_self
              rw [setStatusById_map_id]
              exact hndR]
            rw [any_append_single, hbC]
            simp [hjsid]
          · by_cases hfail : status = "failed"
            · have hc1 : (setStatusById "failed" jid st.pending_jobs).any
                  (fun j => j.id = jid) = false := by
                rw [any_id_setStatusById]; exact hbP
              have hc2 : (setStatusById "failed" jid st.scheduled_jobs).any
                  (fun j => j.id = jid) = false := by
                rw [any_id_setStatusById]; exact hbS
              have hc3 : (setStatusById "failed" jid st.running_jobs).any
                  (fun j => j.id = jid) = true := by
                rw [any_id_setStatusById]; exact hbR
              simp only [update_job_status, hfp, hfs, hjsst, hfail]
              simp only [and_self, String.reduceEq, if_true, if_false, and_true,
                true_and, and_false, false_and, ite_true, ite_false, hc1, hc2, hc3,
                Bool.false_eq_true, Bool.true_eq_false]
              unfold locateQueue
              rw [hc1, hc2]
              rw [show (removeById jid (setStatusById "failed" jid st.running_jobs)).any
                  (fun j => j.id = jid) = false from by
                apply any_id_removeById_self
                rw [setStatusById_map_id]
                exact hndR]
              rw [hbC, any_append_single, hbF]
              simp [hjsid]
            · simp only [update_job_status, hfp, hfs, hjsst]
              simp only [hcomp, hfail]
              simp only [and_self, String.reduceEq, if_true, if_false, and_true,
                true_and, and_false, false_and, ite_true, ite_false]
              unfold locateQueue
              rw [any_id_setStatusById, hbP, any_id_setStatusById, hbS,
                any_id_setStatusById, hbR]
              simp [hcomp, hfail]
        · intro h
          rcases h with h | h | h <;> (rw [hloc] at h; simp at h)
      · -- in the scheduled queue
        rw [hfss] at hor
        simp only [Option.orElse] at hor
        have hjs1 : js = js1 := by simpa using hor
        subst hjs1
        have hjsmem2 : js ∈ st.scheduled_jobs := List.mem_of_find?_eq_some hfss
        have hjsst : js.status = "scheduled" := hcs.2.1 js hjsmem2
        have hidS : jid ∈ st.scheduled_jobs.map (fun j => j.id) :=
          List.mem_map.mpr ⟨js, hjsmem2, hjsid⟩
        have hnR : jid ∉ st.running_jobs.map (fun j => j.id) :=
          hdPSR (List.mem_append_right _ hidS)
        have hnC : jid ∉ st.completed_jobs.map (fun j => j.id) :=
          hdPSRC (List.mem_append_left _ (List.mem_append_right _ hidS))
        have hnF : jid ∉ st.failed_jobs.map (fun j => j.id) :=
          hdPSRCF (List.mem_append_left _ (List.mem_append_left _
            (List.mem_append_right _ hidS)))
        have hbS : st.scheduled_jobs.any (fun j => j.id = jid) = true :=
          (any_id_eq_true_iff _ _).mpr hidS
        have hbR : st.running_jobs.any (fun j => j.id = jid) = false :=
          (any_id_eq_false_iff _ _).mpr hnR
        have hbC : st.completed_jobs.any (fun j => j.id = jid) = false :=
          (any_id_eq_false_iff _ _).mpr hnC
        have hbF : st.failed_jobs.any (fun j => j.id = jid) = false :=
          (any_id_eq_false_iff _ _).mpr hnF
        have hloc : locateQueue st jid = some LifecycleQueue.sched := by
          unfold locateQueue
          rw [hbP, hbS]
          simp
        refine ⟨?_, ?_, ?_, ?_, ?_⟩
        · intro x hx
          have hxj : (decide (js.id = x)) = false := by
            simp [hjsid, Ne.symm hx]
          by_cases hrun : status = "running"
          · simp only [update_job_status, hfp, hfs, hjsst, hrun]
            simp only [and_self, String.reduceEq, if_true, if_false, and_true,
              true_and, and_false, false_and, ite_true, ite_false]
            apply locateQueue_congr <;>
              simp only [any_id_setStatusById, any_id_removeById_other jid x hx,
                any_append_single, hxj, Bool.or_false]
          · by_cases hfail : status = "failed"
            · have hc1 : (setStatusById "failed" jid st.pending_jobs).any
                  (fun j => j.id = jid) = false := by
                rw [any_id_setStatusById]; exact hbP
              have hc2 : (setStatusById "failed" jid st.scheduled_jobs).any
                  (fun j => j.id = jid) = true := by
                rw [any_id_setStatusById]; exact hbS
              simp only [update_job_status, hfp, hfs, hjsst, hfail]
              simp only [and_self, String.reduceEq, if_true, if_false, and_true,
                true_and, and_false, false_and, ite_true, ite_false, hc1, hc2,
                Bool.false_eq_true, Bool.true_eq_false]
              apply locateQueue_congr <;>
                simp only [any_id_setStatusById, any_id_removeById_other jid x hx,
                  any_append_single, hxj, Bool.or_false]
            · simp only [update_job_status, hfp, hfs, hjsst]
              simp only [hrun, hfail]
              simp only [and_self, String.reduceEq, if_true, if_false, and_true,
                true_and, and_false, false_and, ite_true, ite_false]
              apply locateQueue_congr <;> simp only [any_id_setStatusById]
        · intro h
          rw [hloc] at h
          simp at h
        · intro _
          by_cases hrun : status = "running"
          · simp only [update_job_status, hfp, hfs, hjsst, hrun]
            simp only [and_self, String.reduceEq, if_true, if_false, and_true,
              true_and, and_false, false_and, ite_true, ite_false]
            unfold locateQueue
            rw [any_id_setStatusById, hbP]
            rw [show (removeById jid (setStatusById "running" jid st.scheduled_jobs)).any
                (fun j => j.id = jid) = false from by
              apply any_id_removeById_self
              rw [setStatusById_map_id]
              exact hndS]
            rw [any_append_single, any_id_setStatusById, hbR]
            simp [hjsid]
          · by_cases hfail : status = "failed"
            · have hc1 : (setStatusById "failed" jid st.pending_jobs).any
                  (fun j => j.id = jid) = false := by
                rw [any_id_setStatusById]; exact hbP
              have hc2 : (setStatusById "failed" jid st.scheduled_jobs).any
                  (fun j => j.id = jid) = true := by
                rw [any_id_setStatusById]; exact hbS
              simp only [update_job_status, hfp, hfs, hjsst, hfail]
              simp only [and_self, String.reduceEq, if_true, if_false, and_true,
                true_and, and_false, false_and, ite_true, ite_false, hc1, hc2,
                Bool.false_eq_true, Bool.true_eq_false]
              unfold locateQueue
              rw [hc1]
              rw [show (removeById jid (setStatusById "failed" jid st.scheduled_jobs)).any
                  (fun j => j.id = jid) = false from by
                apply any_id_removeById_self
                rw [setStatusById_map_id]
                exact hndS]
              rw [any_id_setStatusById, hbR, hbC, any_append_single, hbF]
              simp [hjsid]
            · simp only [update_job_status, hfp, hfs, hjsst]
              simp only [hrun, hfail]
              simp only [and_self, String.reduceEq, if_true, if_false, and_true,
                true_and, and_false, false_and, ite_true, ite_false]
              unfold locateQueue
              rw [any_id_setStatusById, hbP, any_id_setStatusById, hbS]
              simp [hrun, hfail]
        · intro h
          rw [hloc] at h
          simp at h
        · intro h
          rcases h with h | h | h <;> (rw [hloc] at h; simp at h)
  · -- found in the pending queue
    have hjpmem : jp ∈ st.pending_jobs := List.mem_of_find?_eq_some hfp
    have hjpid : jp.id = jid := by
      have := List.find?_some hfp
      simpa using this
    have hjpst : jp.status = "pending" := hcs.1 jp hjpmem
    have hidP : jid ∈ st.pending_jobs.map (fun j => j.id) :=
      List.mem_map.mpr ⟨jp, hjpmem, hjpid⟩
    have hnS : jid ∉ st.scheduled_jobs.map (fun j => j.id) := hdPS hidP
    have hnR : jid ∉ st.running_jobs.map (fun j => j.id) :=
      hdPSR (List.mem_append_left _ hidP)
    have hnC : jid ∉ st.completed_jobs.map (fun j => j.id) :=
      hdPSRC (List.mem_append_left _ (List.mem_append_left _ hidP))
    have hnF : jid ∉ st.failed_jobs.map (fun j => j.id) :=
      hdPSRCF (List.mem_append_left _ (List.mem_append_left _
        (List.mem_append_left _ hidP)))
    have hbP : st.pending_jobs.any (fun j => j.id = jid) = true :=
      (any_id_eq_true_iff _ _).mpr hidP
    have hbS : st.scheduled_jobs.any (fun j => j.id = jid) = false :=
      (any_id_eq_false_iff _ _).mpr hnS
    have hbR : st.running_jobs.any (fun j => j.id = jid) = false :=
      (any_id_eq_false_iff _ _).mpr hnR
    have hbC : st.completed_jobs.any (fun j => j.id = jid) = false :=
      (any_id_eq_false_iff _ _).mpr hnC
    have hbF : st.failed_jobs.any (fun j => j.id = jid) = false :=
      (any_id_eq_false_iff _ _).mpr hnF
    have hloc : locateQueue st jid = some LifecycleQueue.pend := by
      unfold locateQueue
      rw [hbP]
      simp
    refine ⟨?_, ?_, ?_, ?_, ?_⟩
    · intro x hx
      have hxj : (decide (jp.id = x)) = false := by
        simp [hjpid, Ne.symm hx]
      by_cases hsch : status = "scheduled"
      · simp only [update_job_status, hfp, hjpst, hsch]
        simp only [and_self, String.reduceEq, if_true, if_false, and_true,
          true_and, and_false, false_and, ite_true, ite_false]
        apply locateQueue_congr <;>
          simp only [any_id_setStatusById, any_id_removeById_other jid x hx,
            any_append_single, hxj, Bool.or_false]
      · by_cases hfail : status = "failed"
        · have hc1 : (setStatusById "failed" jid st.pending_jobs).any
              (fun j => j.id = jid) = true := by
            rw [any_id_setStatusById]; exact hbP
          simp only [update_job_status, hfp, hjpst, hfail]
          simp only [and_self, String.reduceEq, if_true, if_false, and_true,
            true_and, and_false, false_and, ite_true, ite_false, hc1,
            Bool.false_eq_true, Bool.true_eq_false]
          apply locateQueue_congr <;>
            simp only [any_id_setStatusById, any_id_removeById_other jid x hx,
              any_append_single, hxj, Bool.or_false]
        · simp only [update_job_status, hfp, hjpst]
          simp only [hsch, hfail]
          simp only [and_self, String.reduceEq, if_true, if_false, and_true,
            true_and, and_false, false_and, ite_true, ite_false]
          apply locateQueue_congr <;> simp only [any_id_setStatusById]
    · intro _
      by_cases hsch : status = "scheduled"
      · simp only [update_job_status, hfp, hjpst, hsch]
        simp only [and_self, String.reduceEq, if_true, if_false, and_true,
          true_and, and_false, false_and, ite_true, ite_false]
        unfold locateQueue
        rw [show (removeById jid (setStatusById "scheduled" jid st.pending_jobs)).any
            (fun j => j.id = jid) = false from by
          apply any_id_removeById_self
          rw [setStatusById_map_id]
          exact hndP]
        rw [any_append_single, any_id_setStatusById, hbS]
        simp [hjpid]
      · by_cases hfail : status = "failed"
        · have hc1 : (setStatusById "failed" jid st.pending_jobs).any
              (fun j => j.id = jid) = true := by
            rw [any_id_setStatusById]; exact hbP
          simp only [update_job_status, hfp, hjpst, hfail]
          simp only [and_self, String.reduceEq, if_true, if_false, and_true,
            true_and, and_false, false_and, ite_true, ite_false, hc1,
            Bool.false_eq_true, Bool.true_eq_false]
          unfold locateQueue
          rw [show (removeById jid (setStatusById "failed" jid st.pending_jobs)).any
              (fun j => j.id = jid) = false from by
            apply any_id_removeById_self
            rw [setStatusById_map_id]
            exact hndP]
          rw [any_id_setStatusById, hbS, any_id_setStatusById, hbR, hbC,
            any_append_single, hbF]
          simp [hjpid]
        · simp only [update_job_status, hfp, hjpst]
          simp only [hsch, hfail]
          simp only [and_self, String.reduceEq, if_true, if_false, and_true,
            true_and, and_false, false_and, ite_true, ite_false]
          unfold locateQueue
          rw [any_id_setStatusById, hbP]
          simp [hsch, hfail]
    · intro h
      rw [hloc] at h
      simp at h
    · intro h
      rw [hloc] at h
      simp at h
    · intro h
      rcases h with h | h | h <;> (rw [hloc] at h; simp at h)

/-- C6 witness: the monotone-movement theorem applied at a one-job monitor
moving `"j1"` from pending to scheduled. -/
theorem C6_update_monotone_queues_witness :
    locateQueue (update_job_status monitorOnePending "j1" "scheduled") "j1" =
      (if "scheduled" = "scheduled" then some LifecycleQueue.sched
       else if "scheduled" = "failed" then some LifecycleQueue.fail
       else some LifecycleQueue.pend) :=
  (C6_update_monotone_queues monitorOnePending "j1" "scheduled"
    (by unfold NodupIds monitorJobs; with_unfolding_all decide)
    (by unfold ConsistentStatuses; with_unfolding_all decide)).2.1
    (by with_unfolding_all decide)

/-! ### Round-trip lemmas for the ledger serializer -/

/-- A successful literal consumption continues the parse. -/
theorem pstep_some {b : Type} (l : List Char) (k : List Char → Option b) :
    pstep (some l) k = k l := rfl

/-- A successful component parse continues with its value and tail. -/
theorem qstep_some {a b : Type} (x : a) (l : List Char) (k : a → List Char → Option b) :
    qstep (some (x, l)) k = k x l := rfl

/-- Consuming a literal off the front of itself leaves the tail. -/
theorem dropLit_append (s t : List Char) : dropLit s (s ++ t) = some t := by
  induction s with
  | nil => rfl
  | cons c cs ih => simp [dropLit, ih]

/-- One matching character of an expected literal. -/
theorem dropLit_cons (c : Char) (cs l : List Char) :
    dropLit (c :: cs) (c :: l) = dropLit cs l := by
  simp [dropLit]

/-- Booleans round-trip. -/
theorem decBool_enc (b : Bool) (t : List Char) :
    decBool (encBool b ++ t) = some (b, t) := by
  cases b <;> rfl

/-- A cons list whose head is not a digit has no leading digit. -/
theorem noLead_cons (c : Char) (t : List Char) (h : isDigitChar c = false) :
    NoLeadingDigit (c :: t) := h

/-- The code point of a decimal digit character. -/
theorem digitChar_toNat (d : Nat) (h : d < 10) : (digitChar d).toNat = 48 + d := by
  interval_cases d <;> decide

/-- Digit characters pass the digit test. -/
theorem isDigitChar_digitChar (d : Nat) (h : d < 10) :
    isDigitChar (digitChar d) = true := by
  interval_cases d <;> decide

/-- Every character of a decimal rendering is a digit. -/
theorem natDigits_digits (n : Nat) : ∀ c ∈ natDigits n, isDigitChar c = true := by
  induction n using Nat.strong_induction_on with
  | _ n ih =>
    rw [natDigits]
    split
    · next h =>
      intro c hc
      simp only [List.mem_singleton] at hc
      subst hc
      exact isDigitChar_digitChar n h
    · next h =>
      intro c hc
      rw [List.mem_append] at hc
      rcases hc with hc | hc
      · exact ih (n / 10) (Nat.div_lt_self (by omega) (by omega)) c hc
      · simp only [List.mem_singleton] at hc
        subst hc
        exact isDigitChar_digitChar (n % 10) (Nat.mod_lt _ (by omega))

/-- A decimal rendering is never empty. -/
theorem natDigits_ne_nil (n : Nat) : natDigits n ≠ [] := by
  rw [natDigits]
  split <;> simp

/-- The digit reader stops at a non-digit. -/
theorem decDigits_stop (acc : Nat) (t : List Char) (h : NoLeadingDigit t) :
    decDigits acc t = (acc, t) := by
  cases t with
  | nil => rfl
  | cons c r =>
    unfold NoLeadingDigit at h
    simp [decDigits, h]

/-- Reading the rendering of `n` shifts it into the accumulator. -/
theorem decDigits_chain (n : Nat) : ∀ (acc : Nat) (t : List Char),
    decDigits acc (natDigits n ++ t) =
      decDigits (acc * 10 ^ (natDigits n).length + n) t := by
  induction n using Nat.strong_induction_on with
  | _ n ih =>
    intro acc t
    rw [natDigits]
    split
    · next h =>
      simp only [List.singleton_append, List.length_cons, List.length_nil]
      rw [decDigits]
      rw [if_pos (isDigitChar_digitChar n h), digitChar_toNat n h]
      congr 1
      simp only [Nat.zero_add, pow_one]
      omega
    · next h =>
      rw [List.append_assoc, List.singleton_append,
        ih (n / 10) (Nat.div_lt_self (by omega) (by omega)) acc
          (digitChar (n % 10) :: t)]
      rw [decDigits]
      rw [if_pos (isDigitChar_digitChar (n % 10) (Nat.mod_lt _ (by omega))),
        digitChar_toNat (n % 10) (Nat.mod_lt _ (by omega))]
      congr 1
      rw [List.length_append, List.length_cons, List.length_nil, pow_add, pow_one]
      have hmod : n / 10 * 10 + n % 10 = n := by omega
      have hshift : (acc * 10 ^ (natDigits (n / 10)).length + n / 10) * 10
            + (48 + n % 10 - 48) =
          acc * (10 ^ (natDigits (n / 10)).length * 10) + (n / 10 * 10 + n % 10) := by
        have h48 : 48 + n % 10 - 48 = n % 10 := by omega
        rw [h48]
        ring
      rw [hshift, hmod]

/-- Nonempty digit runs round-trip through `decNat`. -/
theorem decNat_enc (n : Nat) (t : List Char) (h : NoLeadingDigit t) :
    decNat (natDigits n ++ t) = some (n, t) := by
  obtain ⟨c, cs, hc⟩ : ∃ c cs, natDigits n = c :: cs := by
    cases hnd : natDigits n with
    | nil => exact absurd hnd (natDigits_ne_nil n)
    | cons c cs => exact ⟨c, cs, rfl⟩
  have hdig : isDigitChar c = true := natDigits_digits n c (by rw [hc]; simp)
  rw [hc, List.cons_append, decNat]
  rw [if_pos hdig, ← List.cons_append, ← hc, decDigits_chain n 0 t,
    decDigits_stop _ _ h]
  simp

/-- Rationals round-trip: the canonical rendering decodes to the same
rational whenever the continuation does not begin with a digit. -/
theorem decRat_enc (q : ℚ) (t : List Char) (h : NoLeadingDigit t) :
    decRat (encRat q ++ t) = some (q, t) := by
  have hslash : NoLeadingDigit ('/' :: (natDigits q.den ++ t)) :=
    noLead_cons _ _ (by decide)
  have hmag : ∀ neg : Bool,
      decRatMag neg (natDigits q.num.natAbs ++ ('/' :: (natDigits q.den ++ t))) =
        some ((if neg then -(q.num.natAbs : ℚ) else (q.num.natAbs : ℚ)) / (q.den : ℚ), t) := by
    intro neg
    rw [decRatMag, decNat_enc _ _ hslash, qstep_some, dropLit_cons]
    rw [show dropLit [] (natDigits q.den ++ t) = some (natDigits q.den ++ t) from rfl]
    rw [pstep_some, decNat_enc _ _ h, qstep_some]
  by_cases hneg : q.num < 0
  · have henc : encRat q ++ t =
        '-' :: (natDigits q.num.natAbs ++ ('/' :: (natDigits q.den ++ t))) := by
      simp [encRat, hneg, List.append_assoc]
    rw [henc, decRat, if_pos rfl, hmag true]
    congr 1
    congr 1
    have habs : ((q.num.natAbs : ℚ)) = -(q.num : ℚ) := by
      rw [Int.cast_natAbs]
      simp [abs_of_neg (show (q.num : ℚ) < 0 by exact_mod_cast hneg)]
    rw [if_pos rfl, habs, neg_neg, Rat.num_div_den]
  · obtain ⟨c, cs, hc⟩ : ∃ c cs, natDigits q.num.natAbs = c :: cs := by
      cases hnd : natDigits q.num.natAbs with
      | nil => exact absurd hnd (natDigits_ne_nil _)
      | cons c cs => exact ⟨c, cs, rfl⟩
    have hdig : isDigitChar c = true := natDigits_digits _ c (by rw [hc]; simp)
    have hcm : c ≠ '-' := by
      intro e
      rw [e] at hdig
      exact absurd hdig (by decide)
    have henc : encRat q ++ t =
        c :: (cs ++ ('/' :: (natDigits q.den ++ t))) := by
      simp [encRat, hneg, hc, List.append_assoc]
    rw [henc, decRat, if_neg hcm, ← List.cons_append, ← hc, hmag false]
    congr 1
    congr 1
    have habs : ((q.num.natAbs : ℚ)) = (q.num : ℚ) := by
      rw [Int.cast_natAbs]
      exact_mod_cast abs_of_nonneg (not_lt.mp hneg)
    rw [if_neg (by simp), habs, Rat.num_div_den]

/-- A lowercase-hex digit character decodes to its value. -/
theorem decHexDigit_hexDigitChar (d : Nat) (h : d < 16) :
    decHexDigit (hexDigitChar d) = some d := by
  interval_cases d <;> decide

/-- Four-hex-digit groups round-trip. -/
theorem decHex4_hex4 (v : Nat) (t : List Char) (h : v < 65536) :
    decHex4 (hex4 v ++ t) = some (v, t) := by
  have e1 := decHexDigit_hexDigitChar (v / 4096 % 16) (Nat.mod_lt _ (by omega))
  have e2 := decHexDigit_hexDigitChar (v / 256 % 16) (Nat.mod_lt _ (by omega))
  have e3 := decHexDigit_hexDigitChar (v / 16 % 16) (Nat.mod_lt _ (by omega))
  have e4 := decHexDigit_hexDigitChar (v % 16) (Nat.mod_lt _ (by omega))
  simp only [hex4, List.cons_append, List.nil_append, decHex4, e1, e2, e3, e4,
    Option.bind_eq_bind, Option.some_bind]
  congr 2
  omega

/-- The body reader undoes a `\u` escape of a non-surrogate code point. -/
theorem decStrBodyF_u (f : Nat) (v : Nat) (rest : List Char) (hv : v < 65536)
    (hns : ¬(55296 ≤ v ∧ v < 56320)) :
    decStrBodyF (f + 1) ('\\' :: 'u' :: (hex4 v ++ rest)) =
      (decStrBodyF f rest).map fun p => (Char.ofNat v :: p.1, p.2) := by
  rw [decStrBodyF]
  simp [decHex4_hex4 v rest hv, hns]

/-- The body reader reassembles a surrogate pair of `\u` escapes. -/
theorem decStrBodyF_u2 (f : Nat) (v w : Nat) (rest : List Char)
    (hv1 : 55296 ≤ v) (hv2 : v < 56320) (hw1 : 56320 ≤ w) (hw2 : w < 57344) :
    decStrBodyF (f + 1)
        ('\\' :: 'u' :: (hex4 v ++ ('\\' :: 'u' :: (hex4 w ++ rest)))) =
      (decStrBodyF f rest).map fun p =>
        (Char.ofNat (65536 + (v - 55296) * 1024 + (w - 56320)) :: p.1, p.2) := by
  rw [decStrBodyF]
  simp [decHex4_hex4 v _ (by omega), decHex4_hex4 w rest (by omega),
    hv1, hv2, hw1, hw2]

/-- The escaped body of a string literal round-trips, given fuel beyond the
source length: every branch of `escChar` is undone by `decStrBodyF`. -/
theorem decStrBodyF_enc (s : List Char) : ∀ (fuel : Nat) (t : List Char),
    s.length < fuel →
    decStrBodyF fuel (s.flatMap escChar ++ '"' :: t) = some (s, t) := by
  induction s with
  | nil =>
    intro fuel t h
    cases fuel with
    | zero => simp at h
    | succ f => simp [decStrBodyF]
  | cons c cs ih =>
    intro fuel t h
    cases fuel with
    | zero => simp at h
    | succ f =>
    have hR : decStrBodyF f (cs.flatMap escChar ++ '"' :: t) = some (cs, t) :=
      ih f t (by simpa using h)
    have hv : c.toNat < 55296 ∨ (57343 < c.toNat ∧ c.toNat < 1114112) := c.valid
    rw [List.flatMap_cons, List.append_assoc]
    by_cases hq : c = '"'
    · subst hq
      rw [show escChar '"' = ['\\', '"'] from by decide]
      simp [decStrBodyF, hR]
    · by_cases hb : c = '\\'
      · subst hb
        rw [show escChar '\\' = ['\\', '\\'] from by decide]
        simp [decStrBodyF, hR]
      · by_cases h8 : c.toNat = 8
        · have hesc : escChar c = ['\\', 'b'] := by
            simp only [escChar]
            rw [if_neg hq, if_neg hb, if_pos h8]
          have hc : Char.ofNat 8 = c := by rw [← h8, Char.ofNat_toNat]
          rw [hesc]
          simp [decStrBodyF, hR]
          exact hc
        · by_cases h9 : c.toNat = 9
          · have hesc : escChar c = ['\\', 't'] := by
              simp only [escChar]
              rw [if_neg hq, if_neg hb, if_neg h8, if_pos h9]
            have hc : Char.ofNat 9 = c := by rw [← h9, Char.ofNat_toNat]
            rw [hesc]
            simp [decStrBodyF, hR]
            exact hc
          · by_cases h10 : c.toNat = 10
            · have hesc : escChar c = ['\\', 'n'] := by
                simp only [escChar]
                rw [if_neg hq, if_neg hb, if_neg h8, if_neg h9, if_pos h10]
              have hc : Char.ofNat 10 = c := by rw [← h10, Char.ofNat_toNat]
              rw [hesc]
              simp [decStrBodyF, hR]
              exact hc
            · by_cases h12 : c.toNat = 12
              · have hesc : escChar c = ['\\', 'f'] := by
                  simp only [escChar]
                  rw [if_neg hq, if_neg hb, if_neg h8, if_neg h9, if_neg h10,
                    if_pos h12]
                have hc : Char.ofNat 12 = c := by rw [← h12, Char.ofNat_toNat]
                rw [hesc]
                simp [decStrBodyF, hR]
                exact hc
              · by_cases h13 : c.toNat = 13
                · have hesc : escChar c = ['\\', 'r'] := by
                    simp only [escChar]
                    rw [if_neg hq, if_neg hb, if_neg h8, if_neg h9, if_neg h10,
                      if_neg h12, if_pos h13]
                  have hc : Char.ofNat 13 = c := by rw [← h13, Char.ofNat_toNat]
                  rw [hesc]
                  simp [decStrBodyF, hR]
                  exact hc
                · by_cases hpr : 32 ≤ c.toNat ∧ c.toNat ≤ 126
                  · have hesc : escChar c = [c] := by
                      simp only [escChar]
                      rw [if_neg hq, if_neg hb, if_neg h8, if_neg h9, if_neg h10,
                        if_neg h12, if_neg h13, if_pos hpr]
                    rw [hesc]
                    simp [decStrBodyF, hq, hb, hR]
                  · by_cases hlt : c.toNat < 65536
                    · have hesc : escChar c = '\\' :: 'u' :: hex4 c.toNat := by
                        simp only [escChar]
                        rw [if_neg hq, if_neg hb, if_neg h8, if_neg h9,
                          if_neg h10, if_neg h12, if_neg h13, if_neg hpr,
                          if_pos hlt]
                      rw [hesc]
                      rw [show ('\\' :: 'u' :: hex4 c.toNat) ++
                            (cs.flatMap escChar ++ '"' :: t) =
                          '\\' :: 'u' :: (hex4 c.toNat ++
                            (cs.flatMap escChar ++ '"' :: t)) from by simp]
                      rw [decStrBodyF_u f c.toNat _ hlt (by omega)]
                      rw [hR, Char.ofNat_toNat]
                      rfl
                    · have hesc : escChar c =
                          ('\\' :: 'u' :: hex4 (55296 + (c.toNat - 65536) / 1024))
                            ++ ('\\' :: 'u' ::
                              hex4 (56320 + (c.toNat - 65536) % 1024)) := by
                        simp only [escChar]
                        rw [if_neg hq, if_neg hb, if_neg h8, if_neg h9,
                          if_neg h10, if_neg h12, if_neg h13, if_neg hpr,
                          if_neg hlt]
                      rw [hesc]
                      rw [show (('\\' :: 'u' ::
                            hex4 (55296 + (c.toNat - 65536) / 1024))
                            ++ ('\\' :: 'u' ::
                              hex4 (56320 + (c.toNat - 65536) % 1024))) ++
                            (cs.flatMap escChar ++ '"' :: t) =
                          '\\' :: 'u' ::
                            (hex4 (55296 + (c.toNat - 65536) / 1024) ++
                              ('\\' :: 'u' ::
                                (hex4 (56320 + (c.toNat - 65536) % 1024) ++
                                  (cs.flatMap escChar ++ '"' :: t)))) from by
                        simp [List.append_assoc]]
                      rw [decStrBodyF_u2 f _ _ _ (by omega) (by omega)
                        (by omega) (by omega)]
                      have harg : 65536 +
                          (55296 + (c.toNat - 65536) / 1024 - 55296) * 1024 +
                          (56320 + (c.toNat - 65536) % 1024 - 56320) =
                          c.toNat := by omega
                      rw [harg, hR, Char.ofNat_toNat]
                      rfl

/-- Every escape sequence is nonempty. -/
theorem escChar_length_pos (c : Char) : 1 ≤ (escChar c).length := by
  simp only [escChar, hex4]
  split_ifs <;> simp

/-- Escaping never shortens a string. -/
theorem flatMap_len_ge (l : List Char) : l.length ≤ (l.flatMap escChar).length := by
  induction l with
  | nil => simp
  | cons c cs ih =>
    have hp := escChar_length_pos c
    simp only [List.flatMap_cons, List.length_append, List.length_cons]
    omega

/-- String literals round-trip through `decString`. -/
theorem decString_enc (s : String) (t : List Char) :
    decString (encString s ++ t) = some (s, t) := by
  have hb : encString s ++ t = '"' :: (s.data.flatMap escChar ++ '"' :: t) := by
    simp [encString, List.append_assoc]
  rw [hb]
  show (decStrBodyF ((s.data.flatMap escChar ++ '"' :: t).length + 1)
      (s.data.flatMap escChar ++ '"' :: t)).map
      (fun p => (String.mk p.1, p.2)) = some (s, t)
  rw [decStrBodyF_enc s.data _ t (by
    have hfl := flatMap_len_ge s.data
    rw [List.length_append, List.length_cons]
    omega)]
  rfl

/-- The empty literal consumes nothing. -/
theorem dropLit_nil (l : List Char) : dropLit [] l = some l := rfl

/-- A rendered rational followed by a nonempty non-digit-leading literal
round-trips; the side conditions are closed once the literal is concrete. -/
theorem decRat_enc_lit (q : ℚ) (s : String) (rest : List Char)
    (h1 : s.data ≠ []) (h2 : NoLeadingDigit s.data) :
    decRat (encRat q ++ (lit s ++ rest)) = some (q, lit s ++ rest) := by
  apply decRat_enc
  unfold lit
  cases hd : s.data with
  | nil => exact absurd hd h1
  | cons c cs =>
    rw [hd] at h2
    exact h2

/-- A rendered rational followed by a closing brace round-trips. -/
theorem decRat_enc_cbrace (q : ℚ) (t : List Char) :
    decRat (encRat q ++ cbrace :: t) = some (q, cbrace :: t) :=
  decRat_enc q _ rfl

/-- `jobs_summary` entries round-trip. -/
theorem decJobSummary_enc (j : JobSummaryRec) (t : List Char) :
    decJobSummary (encJobSummary j ++ t) = some (j, t) := by
  simp +decide only [encJobSummary, decJobSummary, List.append_assoc,
    List.cons_append, List.nil_append, dropLit_cons, dropLit_append,
    dropLit_nil, pstep_some, qstep_some, decBool_enc, decString_enc,
    decRat_enc_lit, decRat_enc_cbrace]

/-- `schedule` entries round-trip. -/
theorem decScheduleItem_enc (s : ScheduleItemRec) (t : List Char) :
    decScheduleItem (encScheduleItem s ++ t) = some (s, t) := by
  simp +decide only [encScheduleItem, decScheduleItem, List.append_assoc,
    List.cons_append, List.nil_append, dropLit_cons, dropLit_append,
    dropLit_nil, pstep_some, qstep_some, decBool_enc, decString_enc,
    decRat_enc_lit, decRat_enc_cbrace]

/-- The `grid_state` block round-trips. -/
theorem decGridState_enc (g : GridStateRec) (t : List Char) :
    decGridState (encGridState g ++ t) = some (g, t) := by
  simp +decide only [encGridState, decGridState, List.append_assoc,
    List.cons_append, List.nil_append, dropLit_cons, dropLit_append,
    dropLit_nil, pstep_some, qstep_some, decString_enc,
    decRat_enc_lit, decRat_enc_cbrace]

/-- The `metrics` block round-trips. -/
theorem decMetrics_enc (m : MetricsRec) (t : List Char) :
    decMetrics (encMetrics m ++ t) = some (m, t) := by
  simp +decide only [encMetrics, decMetrics, List.append_assoc,
    List.cons_append, List.nil_append, dropLit_cons, dropLit_append,
    dropLit_nil, pstep_some, qstep_some,
    decRat_enc_lit, decRat_enc_cbrace]

/-- Per-region stats blocks round-trip. -/
theorem decRegionStats_enc (r : RegionStatsRec) (t : List Char) :
    decRegionStats (encRegionStats r ++ t) = some (r, t) := by
  simp +decide only [encRegionStats, decRegionStats, List.append_assoc,
    List.cons_append, List.nil_append, dropLit_cons, dropLit_append,
    dropLit_nil, pstep_some, qstep_some,
    decRat_enc_lit, decRat_enc_cbrace]

/-- A `flatMap` by nonempty chunks never shortens a list. -/
theorem flatMap_chunk_len_ge {α : Type} (g : α → List Char)
    (h : ∀ x, 1 ≤ (g x).length) (l : List α) :
    l.length ≤ (l.flatMap g).length := by
  induction l with
  | nil => simp
  | cons x xs ih =>
    have := h x
    simp only [List.flatMap_cons, List.length_append, List.length_cons]
    omega

/-- Tail elements of an encoded array round-trip, given fuel beyond the
element count. -/
theorem decListMore_enc {a : Type} (dec : List Char → Option (a × List Char))
    (f : a → List Char) (hdec : ∀ x u, dec (f x ++ u) = some (x, u))
    (xs : List a) : ∀ (fuel : Nat) (t : List Char), xs.length < fuel →
    decListMore dec fuel (xs.flatMap (fun y => ',' :: ' ' :: f y) ++ ']' :: t) =
      some (xs, t) := by
  induction xs with
  | nil =>
    intro fuel t h
    cases fuel with
    | zero => simp at h
    | succ f2 => rfl
  | cons x xs ih =>
    intro fuel t h
    cases fuel with
    | zero => simp at h
    | succ f2 =>
      have hx : (x :: xs).flatMap (fun y => ',' :: ' ' :: f y) ++ ']' :: t =
          ',' :: ' ' ::
            (f x ++ (xs.flatMap (fun y => ',' :: ' ' :: f y) ++ ']' :: t)) := by
        simp [List.append_assoc]
      rw [hx]
      rw [show decListMore dec (f2 + 1) (',' :: ' ' ::
            (f x ++ (xs.flatMap (fun y => ',' :: ' ' :: f y) ++ ']' :: t))) =
          qstep (dec (f x ++ (xs.flatMap (fun y => ',' :: ' ' :: f y) ++ ']' :: t)))
            (fun x2 l1 => qstep (decListMore dec f2 l1) fun xs2 l2 =>
              some (x2 :: xs2, l2)) from rfl]
      rw [hdec x _, qstep_some, ih f2 t (by simpa using h), qstep_some]

/-- Encoded arrays round-trip when elements round-trip and open with a brace. -/
theorem decListWith_enc {a : Type} (dec : List Char → Option (a × List Char))
    (f : a → List Char) (hdec : ∀ x u, dec (f x ++ u) = some (x, u))
    (hhead : ∀ x, ∃ tl, f x = obrace :: tl) (xs : List a) (t : List Char) :
    decListWith dec (encListWith f xs ++ t) = some (xs, t) := by
  cases xs with
  | nil => rfl
  | cons x xs =>
    obtain ⟨tl, htl⟩ := hhead x
    have hshape : encListWith f (x :: xs) ++ t =
        '[' :: obrace ::
          (tl ++ (xs.flatMap (fun y => ',' :: ' ' :: f y) ++ ']' :: t)) := by
      rw [encListWith, htl]
      simp [List.append_assoc]
    rw [hshape]
    rw [show decListWith dec ('[' :: obrace ::
          (tl ++ (xs.flatMap (fun y => ',' :: ' ' :: f y) ++ ']' :: t))) =
        qstep (dec (obrace ::
            (tl ++ (xs.flatMap (fun y => ',' :: ' ' :: f y) ++ ']' :: t))))
          (fun x2 l1 => qstep (decListMore dec (l1.length + 1) l1)
            fun xs2 l2 => some (x2 :: xs2, l2)) from rfl]
    have hfx : obrace ::
        (tl ++ (xs.flatMap (fun y => ',' :: ' ' :: f y) ++ ']' :: t)) =
        f x ++ (xs.flatMap (fun y => ',' :: ' ' :: f y) ++ ']' :: t) := by
      rw [htl]
      rfl
    rw [hfx, hdec x _, qstep_some]
    have hlen : xs.length <
        (xs.flatMap (fun y => ',' :: ' ' :: f y) ++ ']' :: t).length + 1 := by
      have := flatMap_chunk_len_ge (fun y => ',' :: ' ' :: f y) (by simp) xs
      rw [List.length_append, List.length_cons]
      omega
    rw [decListMore_enc dec f hdec xs _ t hlen, qstep_some]

/-- Tail entries of the encoded regional-distribution object round-trip. -/
theorem decDistMore_enc (xs : List (String × RegionStatsRec)) :
    ∀ (fuel : Nat) (t : List Char), xs.length < fuel →
    decDistMore fuel (xs.flatMap (fun e => ',' :: ' ' ::
        (encString e.1 ++ lit (": ") ++ encRegionStats e.2)) ++ cbrace :: t) =
      some (xs, t) := by
  induction xs with
  | nil =>
    intro fuel t h
    cases fuel with
    | zero => simp at h
    | succ f2 => rfl
  | cons x xs ih =>
    intro fuel t h
    cases fuel with
    | zero => simp at h
    | succ f2 =>
      have hx : (x :: xs).flatMap (fun e => ',' :: ' ' ::
            (encString e.1 ++ lit (": ") ++ encRegionStats e.2)) ++ cbrace :: t =
          ',' :: ' ' :: (encString x.1 ++ (lit (": ") ++ (encRegionStats x.2 ++
            (xs.flatMap (fun e => ',' :: ' ' ::
              (encString e.1 ++ lit (": ") ++ encRegionStats e.2)) ++
                cbrace :: t)))) := by
        simp [List.append_assoc]
      rw [hx]
      rw [show decDistMore (f2 + 1) (',' :: ' ' ::
            (encString x.1 ++ (lit (": ") ++ (encRegionStats x.2 ++
              (xs.flatMap (fun e => ',' :: ' ' ::
                (encString e.1 ++ lit (": ") ++ encRegionStats e.2)) ++
                  cbrace :: t))))) =
          (qstep (decString (encString x.1 ++ (lit (": ") ++
              (encRegionStats x.2 ++
                (xs.flatMap (fun e => ',' :: ' ' ::
                  (encString e.1 ++ lit (": ") ++ encRegionStats e.2)) ++
                    cbrace :: t))))) fun k l1 =>
            pstep (dropLit (lit (": ")) l1) fun l2 =>
            qstep (decRegionStats l2) fun v l3 =>
            qstep (decDistMore f2 l3) fun es l4 =>
            some ((k, v) :: es, l4)) from rfl]
      rw [decString_enc, qstep_some, dropLit_append, pstep_some,
        decRegionStats_enc, qstep_some, ih f2 t (by simpa using h), qstep_some]

/-- The encoded regional-distribution object round-trips. -/
theorem decDist_enc (xs : List (String × RegionStatsRec)) (t : List Char) :
    decDist (encDist xs ++ t) = some (xs, t) := by
  cases xs with
  | nil => rfl
  | cons x xs =>
    have hshape : encDist (x :: xs) ++ t =
        obrace :: (encString x.1 ++ (lit (": ") ++ (encRegionStats x.2 ++
          (xs.flatMap (fun e => ',' :: ' ' ::
            (encString e.1 ++ lit (": ") ++ encRegionStats e.2)) ++
              cbrace :: t)))) := by
      rw [encDist]
      simp [List.append_assoc]
    rw [hshape]
    rw [show decDist (obrace :: (encString x.1 ++ (lit (": ") ++
          (encRegionStats x.2 ++
            (xs.flatMap (fun e => ',' :: ' ' ::
              (encString e.1 ++ lit (": ") ++ encRegionStats e.2)) ++
                cbrace :: t))))) =
        (qstep (decString (encString x.1 ++ (lit (": ") ++
            (encRegionStats x.2 ++
              (xs.flatMap (fun e => ',' :: ' ' ::
                (encString e.1 ++ lit (": ") ++ encRegionStats e.2)) ++
                  cbrace :: t))))) fun k l1 =>
          pstep (dropLit (lit (": ")) l1) fun l2 =>
          qstep (decRegionStats l2) fun v l3 =>
          qstep (decDistMore (l3.length + 1) l3) fun es l4 =>
          some ((k, v) :: es, l4)) from rfl]
    rw [decString_enc, qstep_some, dropLit_append, pstep_some,
      decRegionStats_enc, qstep_some]
    have hlen : xs.length <
        (xs.flatMap (fun e => ',' :: ' ' ::
          (encString e.1 ++ lit (": ") ++ encRegionStats e.2)) ++
            cbrace :: t).length + 1 := by
      have := flatMap_chunk_len_ge (fun e => ',' :: ' ' ::
        (encString e.1 ++ lit (": ") ++ encRegionStats e.2)) (by simp) xs
      rw [List.length_append, List.length_cons]
      omega
    rw [decDistMore_enc xs _ t hlen, qstep_some]

/-- The encoded `jobs_summary` array round-trips. -/
theorem decListJobSummary_enc (xs : List JobSummaryRec) (t : List Char) :
    decListWith decJobSummary (encListWith encJobSummary xs ++ t) =
      some (xs, t) :=
  decListWith_enc decJobSummary encJobSummary decJobSummary_enc
    (fun _ => ⟨_, rfl⟩) xs t

/-- The encoded `schedule` array round-trips. -/
theorem decListScheduleItem_enc (xs : List ScheduleItemRec) (t : List Char) :
    decListWith decScheduleItem (encListWith encScheduleItem xs ++ t) =
      some (xs, t) :=
  decListWith_enc decScheduleItem encScheduleItem decScheduleItem_enc
    (fun _ => ⟨_, rfl⟩) xs t

/-- A full hash-free decision record round-trips through its decoder: the
canonical serialization is injective up to an explicit inverse. -/
theorem decContent_enc (c : DecisionContent) (t : List Char) :
    decContent (encContent c ++ t) = some (c, t) := by
  simp +decide only [encContent, decContent, List.append_assoc,
    List.cons_append, List.nil_append, dropLit_cons, dropLit_append,
    dropLit_nil, pstep_some, qstep_some, decString_enc, decGridState_enc,
    decMetrics_enc, decListJobSummary_enc, decListScheduleItem_enc,
    decDist_enc, decRat_enc_lit, decRat_enc_cbrace]

/-- The canonical serialization is injective: distinct contents serialize
differently (via the explicit decoder inverse at the empty continuation). -/
theorem encContent_injective (c1 c2 : DecisionContent)
    (h : encContent c1 = encContent c2) : c1 = c2 := by
  have h1 := decContent_enc c1 []
  rw [h, decContent_enc c2 []] at h1
  simpa using h1.symm

/-- C1: every record `log_decision` appends stores the SHA-256 digest of its
own sorted-keys serialization without the `hash` field — re-serializing and
re-hashing reproduces the stored hash exactly — and any record whose content
differs in any field recomputes to a different hash, except on an explicit
SHA-256 collision of the embedded hash function. -/
theorem C1_ledger_hash_integrity (st : LedgerState) (now_iso now_compact : String)
    (jobs : List ComputeJob) (schedule : List AuditScheduleItem)
    (grid_state : AuditGridState) :
    (log_decision st now_iso now_compact jobs schedule grid_state).decision_log =
      st.decision_log ++
        [newDecisionRecord now_iso now_compact st.decisions_logged jobs
          schedule grid_state] ∧
    recomputedHash (newDecisionRecord now_iso now_compact st.decisions_logged
        jobs schedule grid_state) =
      (newDecisionRecord now_iso now_compact st.decisions_logged jobs
        schedule grid_state).hash ∧
    ∀ c2 : DecisionContent,
      c2 ≠ (newDecisionRecord now_iso now_compact st.decisions_logged jobs
        schedule grid_state).content →
      recomputedHash
        { content := c2,
          hash := (newDecisionRecord now_iso now_compact st.decisions_logged
            jobs schedule grid_state).hash } ≠
        (newDecisionRecord now_iso now_compact st.decisions_logged jobs
          schedule grid_state).hash ∨
      Sha256Collision := by
  refine ⟨rfl, rfl, ?_⟩
  intro c2 hne
  by_cases hh : calculateHash (encContent c2) =
      calculateHash (encContent (newDecisionRecord now_iso now_compact
        st.decisions_logged jobs schedule grid_state).content)
  · exact Or.inr ⟨encContent c2, encContent (newDecisionRecord now_iso
      now_compact st.decisions_logged jobs schedule grid_state).content,
      fun he => hne (encContent_injective _ _ he), hh⟩
  · exact Or.inl hh

/-- C1 witness: at a concrete ledger call, mutating the stored record's
timestamp field makes the recomputed hash differ (or exhibits a collision). -/
theorem C1_ledger_hash_integrity_witness :
    recomputedHash
      { content :=
          { buildDecisionContent "2025-01-01T00:00:00" "20250101_000000" 0
              [] [] auditGridSample with timestamp := "mutated" },
        hash := (newDecisionRecord "2025-01-01T00:00:00" "20250101_000000" 0
          [] [] auditGridSample).hash } ≠
      (newDecisionRecord "2025-01-01T00:00:00" "20250101_000000" 0
        [] [] auditGridSample).hash ∨
    Sha256Collision :=
  (C1_ledger_hash_integrity ledgerEmpty "2025-01-01T00:00:00"
      "20250101_000000" [] [] auditGridSample).2.2
    { buildDecisionContent "2025-01-01T00:00:00" "20250101_000000" 0
        [] [] auditGridSample with timestamp := "mutated" }
    (by with_unfolding_all decide)
